import Mathlib

/-
Verification of the amazon_auto_tool repository (src/amazon_auto.py and
src/category_search.py) against its natural-language specification.

The Python functions are shallowly embedded as executable Lean definitions:
strings are Lean `String`/`List Char`, the Gmail message payload is a
recursive tree type, the regular-expression searches of the OTP extractor
are realised by a small backtracking matcher whose patterns transcribe the
source regexes piece by piece, and external effects (DOM queries, sheet
appends) are modelled by the data they deliver to the surrounding logic.
-/

namespace AmazonTool

/-- Model of Python's `\d` character class for `str` patterns: it matches any
Unicode decimal digit (category Nd), not only ASCII.  We enumerate the ASCII
block together with the fullwidth (U+FF10-U+FF19) and Arabic-Indic
(U+0660-U+0669) blocks; these cover every character exercised in this
development, and the theorems below do not depend on the predicate's value
elsewhere. -/
def isDigitPy (c : Char) : Bool :=
  (('0' ≤ c ∧ c ≤ '9') ∨ ('０' ≤ c ∧ c ≤ '９') ∨ ('٠' ≤ c ∧ c ≤ '٩') : Prop)

/-- ASCII decimal digit. -/
def isAsciiDigit (c : Char) : Bool :=
  '0' ≤ c ∧ c ≤ '9'

/-- Model of Python's `\s` class: ASCII whitespace (space, tab, newline,
carriage return, vertical tab, form feed) plus the ideographic space; Python
additionally matches the remaining Unicode whitespace characters, none of
which occur in this development. -/
def isSpacePy (c : Char) : Bool :=
  c = ' ' ∨ c = '\t' ∨ c = '\n' ∨ c = '\r' ∨ c = '\x0b' ∨ c = '\x0c' ∨ c = '　'

/-- Model of Python's `str.lower` / `re.IGNORECASE` folding on one character:
ASCII letters are lowered, everything else (in particular the Japanese
characters appearing in the source patterns) is unchanged. -/
def pyLower (c : Char) : Char :=
  if 'A' ≤ c ∧ c ≤ 'Z' then Char.ofNat (c.toNat + 32) else c

/-- Model of Python's `needle in haystack` substring test. -/
def strIn (needle : List Char) : List Char → Bool
  | [] => needle.isEmpty
  | c :: t => needle.isPrefixOf (c :: t) || strIn needle t

/-- Model of Python's `str.isdigit` restricted to the strings it is applied to
here (regex captures of `\d` runs): true on a nonempty all-digit string.
Python's `isdigit` also accepts a few non-Nd characters, which can never
appear in a `\d` capture. -/
def pyStrIsDigit (s : List Char) : Bool :=
  !s.isEmpty && s.all isDigitPy

/-- Regular-expression fragments used by the source patterns: a character
class, concatenation, (preference-ordered) alternation, greedy option,
greedy star of a class (for `\s*`, `[^>]*`) and lazy star of a class
(for `.*?` under `re.DOTALL`). -/
inductive RE where
  | eps : RE
  | cls (p : Char → Bool) : RE
  | seq (a b : RE) : RE
  | alt (a b : RE) : RE
  | opt (a : RE) : RE
  | star (p : Char → Bool) : RE
  | lazyStar (p : Char → Bool) : RE

/-- Greedy class star: consume as many `p`-characters as possible, then
backtrack one at a time into the continuation. -/
def starGreedy {α : Type} (p : Char → Bool) : List Char → (List Char → Option α) → Option α
  | [], k => k []
  | c :: rest, k =>
      if p c then
        match starGreedy p rest k with
        | some r => some r
        | none => k (c :: rest)
      else k (c :: rest)

/-- Lazy class star: try the continuation first, consuming a `p`-character
only when the shorter attempts fail. -/
def starLazy {α : Type} (p : Char → Bool) : List Char → (List Char → Option α) → Option α
  | s, k =>
      match k s with
      | some r => some r
      | none =>
          match s with
          | [] => none
          | c :: rest => if p c then starLazy p rest k else none

/-- Backtracking matcher in continuation style: `matchRE re s k` tries every
way `re` can match a prefix of `s`, in the preference order of Python's
backtracking engine (alternation left first, greedy longest first, lazy
shortest first), and hands each remaining suffix to `k` until it succeeds. -/
def matchRE {α : Type} : RE → List Char → (List Char → Option α) → Option α
  | .eps, s, k => k s
  | .cls p, s, k =>
      match s with
      | [] => none
      | c :: rest => if p c then k rest else none
  | .seq a b, s, k => matchRE a s (fun s' => matchRE b s' k)
  | .alt a b, s, k =>
      match matchRE a s k with
      | some r => some r
      | none => matchRE b s k
  | .opt a, s, k =>
      match matchRE a s k with
      | some r => some r
      | none => k s
  | .star p, s, k => starGreedy p s k
  | .lazyStar p, s, k => starLazy p s k

/-- Case-insensitive literal character, as compiled under `re.IGNORECASE`. -/
def litCI (c : Char) : RE := .cls (fun x => pyLower x = pyLower c)

/-- Case-insensitive literal string. -/
def strCI (s : String) : RE :=
  s.toList.foldr (fun c acc => .seq (litCI c) acc) .eps

/-- Concatenation of a list of fragments. -/
def seqs (l : List RE) : RE :=
  l.foldr .seq .eps

/-- The capture group `(\d{6})` shared by every source pattern: six
consecutive `\d` characters, returned together with the remaining input. -/
def take6Digits (s : List Char) : Option (List Char × List Char) :=
  let g := s.take 6
  if g.length = 6 && g.all isDigitPy then some (g, s.drop 6) else none

/-- Try a pattern `pre (\d{6}) post` at the head of the input, backtracking
through `pre`; on success return the capture and the input remaining after
`post`. -/
def tryCaptureR (pre post : RE) (s : List Char) : Option (List Char × List Char) :=
  matchRE pre s fun s1 =>
    match take6Digits s1 with
    | some (g, s2) => matchRE post s2 fun s3 => some (g, s3)
    | none => none

/-- `re.search` for a pattern `pre (\d{6}) post`: try successive start
positions left to right (Python's leftmost-match rule) and return the first
capture. -/
def reSearch (pre post : RE) : List Char → Option (List Char)
  | [] => (tryCaptureR pre post []).map (fun r => r.1)
  | c :: t =>
      match tryCaptureR pre post (c :: t) with
      | some (g, _) => some g
      | none => reSearch pre post t

/-- Source check `len(otp) == 6 and otp.isdigit()` guarding every return of a
candidate, followed by the return of the capture as a string. -/
def checkOtp (g : List Char) : Option String :=
  if g.length = 6 && pyStrIsDigit g then some (String.mk g) else none

/-- One plain-text strategy of `extract_otp_from_text`: if the regex search
produced a capture, apply the guard; a failed guard falls through to the next
strategy exactly like a failed search. -/
def tryPat (r : Option (List Char)) : Option String :=
  match r with
  | some g => checkOtp g
  | none => none

/-! ### The concrete patterns of `extract_otp_from_text` -/

/-- Character class `[:：]`. -/
def isColonPy (c : Char) : Bool :=
  c = ':' ∨ c = '：'

/-- `\s+`. -/
def spacePlus : RE :=
  .seq (.cls isSpacePy) (.star isSpacePy)

/-- `(?:\s*[:：]\s*)`. -/
def colonGroup : RE :=
  seqs [.star isSpacePy, .cls isColonPy, .star isSpacePy]

/-- Pattern 1 prefix:
`確認コード(?:は|:|：)(?:次のとおりです)?(?:\s*[:：]\s*)?` before `(\d{6})`. -/
def pre1 : RE :=
  seqs [strCI "確認コード",
        .alt (litCI 'は') (.alt (litCI ':') (litCI '：')),
        .opt (strCI "次のとおりです"),
        .opt colonGroup]

/-- Pattern 2 prefix: `verification\s+code(?:\s+is)?(?:\s*[:：]\s*)?`. -/
def pre2 : RE :=
  seqs [strCI "verification", spacePlus, strCI "code",
        .opt (.seq spacePlus (strCI "is")),
        .opt colonGroup]

/-- Pattern 3 prefix: `コード(?:\s*[:：]\s*)`. -/
def pre3 : RE :=
  seqs [strCI "コード", colonGroup]

/-- Pattern 4, `(?:^|\s)(\d{6})(?:\s|$)` under `re.MULTILINE`, needs the
anchors and is realised directly: this helper matches `(\d{6})(?:\s|$)` at
the head of the input (`$` matches at end of input or before a newline, and a
newline is also `\s`). -/
def standaloneAt (s : List Char) : Option (List Char) :=
  match take6Digits s with
  | some (g, rest) =>
      match rest with
      | [] => some g
      | c :: _ => if isSpacePy c then some g else none
  | none => none

/-- Search for pattern 4: at each start position try the zero-width `^`
alternative first (valid at the start of the input and after a newline), then
the one-character `\s` alternative. -/
def searchStandalone : Bool → List Char → Option (List Char)
  | lineStart, s =>
      let viaCaret := if lineStart then standaloneAt s else none
      let attempt :=
        match viaCaret with
        | some g => some g
        | none =>
            match s with
            | c :: rest => if isSpacePy c then standaloneAt rest else none
            | [] => none
      match attempt with
      | some g => some g
      | none =>
          match s with
          | [] => none
          | c :: rest => searchStandalone (c = '\n') rest

/-! ### The HTML patterns of `extract_otp_from_html` -/

/-- `<tag[^>]*>` for a literal opening `<tag`. -/
def tagOpen (tag : String) : RE :=
  seqs [strCI tag, .star (fun c => !(c = '>')), litCI '>']

/-- `.*?` under `re.DOTALL`. -/
def dotLazy : RE :=
  .lazyStar (fun _ => true)

/-- Prefix of the `table_pattern` of `extract_otp_from_html` before the
capture:
`<table[^>]*>.*?<tbody[^>]*>.*?<tr[^>]*>.*?<tr[^>]*>.*?<tr[^>]*>.*?<tr[^>]*>.*?<td[^>]*>.*?<div[^>]*>.*?<span[^>]*>`. -/
def preTable : RE :=
  seqs [tagOpen "<table", dotLazy, tagOpen "<tbody", dotLazy,
        tagOpen "<tr", dotLazy, tagOpen "<tr", dotLazy,
        tagOpen "<tr", dotLazy, tagOpen "<tr", dotLazy,
        tagOpen "<td", dotLazy, tagOpen "<div", dotLazy,
        tagOpen "<span"]

/-- Suffix of both HTML patterns after the capture: `</span>`. -/
def postSpan : RE :=
  strCI "</span>"

/-- Prefix of the `span_pattern`, `<span[^>]*>`. -/
def preSpan : RE :=
  tagOpen "<span"

/-- `re.findall` for the `span_pattern`, fuelled so that it computes by
kernel reduction: scan start positions left to right; after each
(necessarily nonempty, at least 6 characters long) match, continue after its
end.  One unit of fuel is spent per position examined, so fuel equal to the
input length never runs out; `findAllSpansF_irrel` and `findAllSpans_eq`
below make this exact. -/
def findAllSpansF : Nat → List Char → List (List Char)
  | 0, _ => []
  | fuel + 1, s =>
      match tryCaptureR preSpan postSpan s with
      | some (g, rest) => g :: findAllSpansF fuel rest
      | none =>
          match s with
          | [] => []
          | _ :: t => findAllSpansF fuel t

/-- `re.findall` for the `span_pattern`. -/
def findAllSpans (s : List Char) : List (List Char) :=
  findAllSpansF s.length s

/-! ### `extract_otp_from_html` (src/amazon_auto.py lines 257-297) -/

/-- Model of Python's `str.find`, as an `Option`al index (Python's `-1`
becomes `none`). -/
def pyFind (needle : List Char) : List Char → Option Nat
  | [] => if needle.isPrefixOf ([] : List Char) then some 0 else none
  | c :: t =>
      if needle.isPrefixOf (c :: t) then some 0
      else (pyFind needle t).map (fun n => n + 1)

/-- The literal `f'<span>{span_text}</span>'` (an attribute-free `<span>`) the
source looks up to locate a candidate's context window. -/
def spanNeedle (g : List Char) : List Char :=
  "<span>".toList ++ g ++ "</span>".toList

/-- Method 2 context test: the candidate's literal `<span>` occurrence must be
found at a strictly positive index, and the window of 500 characters before
and 100 after it must contain both `table` and `tbody` (case-folded). -/
def spanContextOk (cs g : List Char) : Bool :=
  match pyFind (spanNeedle g) cs with
  | some i =>
      if 0 < i then
        let a := i - 500
        let ctx := ((cs.drop a).take (i + 100 - a)).map pyLower
        strIn "table".toList ctx && strIn "tbody".toList ctx
      else false
  | none => false

/-- Method 2 loop over the `findall` captures: return the first candidate that
passes the shape guard and the context test. -/
def method2Spans (cs : List Char) : List (List Char) → Option String
  | [] => none
  | g :: rest =>
      if (g.length = 6 && pyStrIsDigit g) && spanContextOk cs g then
        some (String.mk g)
      else method2Spans cs rest

/-- `extract_otp_from_html`: method 1 searches the fixed table skeleton
pattern; when it yields nothing (or its guard fails), method 2 scans every
`<span>`-enclosed 6-digit run and applies the context test. -/
def extract_otp_from_html (html_text : String) : Option String :=
  if html_text = "" then none
  else
    let cs := html_text.toList
    match tryPat (reSearch preTable postSpan cs) with
    | some o => some o
    | none => method2Spans cs (findAllSpans cs)

/-! ### `extract_otp_from_text` (src/amazon_auto.py lines 300-334) -/

/-- The rich-content classification of `extract_otp_from_text` (and of the
direct body data in `decode_email_body`): the lowered text contains `<html`,
`<body` or `<table`. -/
def isRichText (s : String) : Bool :=
  let low := s.toList.map pyLower
  strIn "<html".toList low || strIn "<body".toList low || strIn "<table".toList low

/-- The ordered plain-text strategies (patterns 1-4) of
`extract_otp_from_text`; a pattern whose search fails, or whose capture fails
the shape guard, falls through to the next. -/
def plainPatternsScan (cs : List Char) : Option String :=
  match tryPat (reSearch pre1 .eps cs) with
  | some o => some o
  | none =>
      match tryPat (reSearch pre2 .eps cs) with
      | some o => some o
      | none =>
          match tryPat (reSearch pre3 .eps cs) with
          | some o => some o
          | none => tryPat (searchStandalone true cs)

/-- `extract_otp_from_text`: empty input yields `None`; a body classified rich
first goes through `extract_otp_from_html`, and any truthy result is
returned; otherwise (including a rich body on which the HTML strategies
failed) the plain-text patterns are attempted. -/
def extract_otp_from_text (text : String) : Option String :=
  if text = "" then none
  else
    let fromHtml := if isRichText text then extract_otp_from_html text else none
    match fromHtml with
    | some o => if o = "" then plainPatternsScan text.toList else some o
    | none => plainPatternsScan text.toList

/-! ### `base64.urlsafe_b64decode(...).decode('utf-8', errors='ignore')` -/

/-- The Python exceptions that can escape `decode_email_body`: a
`binascii.Error` from `urlsafe_b64decode`, or a `KeyError` from `part['body']`
on a part lacking a `body` key. -/
inductive PyErr where
  | b64Error : PyErr
  | keyError : PyErr
deriving DecidableEq, Repr

/-- Decidable equality of `Except` results, so that concrete runs evaluate. -/
instance {ε α : Type} [DecidableEq ε] [DecidableEq α] : DecidableEq (Except ε α)
  | .ok a, .ok b =>
      if h : a = b then .isTrue (by rw [h]) else .isFalse (by simp [h])
  | .ok _, .error _ => .isFalse (by simp)
  | .error _, .ok _ => .isFalse (by simp)
  | .error e, .error f =>
      if h : e = f then .isTrue (by rw [h]) else .isFalse (by simp [h])

/-- Value of one base64 alphabet character, after the urlsafe translation
`-` to `+` and `_` to `/`; `none` for characters the non-strict decoder
discards (`=` is handled separately). -/
def b64CharVal (c : Char) : Option Nat :=
  if 'A' ≤ c ∧ c ≤ 'Z' then some (c.toNat - 65)
  else if 'a' ≤ c ∧ c ≤ 'z' then some (c.toNat - 97 + 26)
  else if '0' ≤ c ∧ c ≤ '9' then some (c.toNat - 48 + 52)
  else if c = '+' ∨ c = '-' then some 62
  else if c = '/' ∨ c = '_' then some 63
  else none

/-- The 6-bit groups of `base64.urlsafe_b64decode` (non-strict mode):
characters outside the alphabet are discarded; the data characters before the
first `=` must stop 0, 2 (followed by a second `=`) or 3 short of a quad
boundary, everything after the completed padding being ignored; without `=`
the data length must be a multiple of 4.  Any other shape raises
`binascii.Error`. -/
def b64SixBits (s : String) : Except PyErr (List Nat) :=
  let toks : List (Sum Nat Unit) :=
    s.toList.filterMap fun c =>
      if c = '=' then some (Sum.inr ()) else (b64CharVal c).map Sum.inl
  let pre := (toks.takeWhile (fun t => t.isLeft)).filterMap (fun t => t.getLeft?)
  let rest := toks.dropWhile (fun t => t.isLeft)
  if rest.isEmpty then
    if pre.length % 4 = 0 then .ok pre else .error .b64Error
  else
    match pre.length % 4 with
    | 0 => .ok pre
    | 1 => .error .b64Error
    | 2 =>
        match rest with
        | _ :: Sum.inr _ :: _ => .ok pre
        | _ => .error .b64Error
    | _ => .ok pre

/-- Reassemble the 6-bit groups into bytes; a trailing group of 2 or 3
characters contributes 1 or 2 bytes, surplus low bits being dropped without
validation (non-strict mode). -/
def b64Bytes : List Nat → List Nat
  | a :: b :: c :: d :: rest =>
      (a * 4 + b / 16) :: ((b % 16) * 16 + c / 4) :: ((c % 4) * 64 + d) :: b64Bytes rest
  | [a, b] => [a * 4 + b / 16]
  | [a, b, c] => [a * 4 + b / 16, (b % 16) * 16 + c / 4]
  | _ => []

/-- UTF-8 decoding with `errors='ignore'`, fuelled (one unit per byte
examined, so fuel equal to the byte count never runs out —
`utf8DecodeIgnoreF_irrel` below): bytes that cannot begin or continue a
valid sequence are dropped one at a time, which yields the same final
string as CPython's skipping of maximal invalid subparts, since a stray
continuation byte is itself an invalid start. -/
def utf8DecodeIgnoreF : Nat → List Nat → List Char
  | 0, _ => []
  | _, [] => []
  | fuel + 1, b :: rest =>
      if b < 0x80 then Char.ofNat b :: utf8DecodeIgnoreF fuel rest
      else if 0xC2 ≤ b ∧ b ≤ 0xDF then
        match rest with
        | b2 :: rest2 =>
            if 0x80 ≤ b2 ∧ b2 ≤ 0xBF then
              Char.ofNat ((b - 0xC0) * 64 + (b2 - 0x80)) :: utf8DecodeIgnoreF fuel rest2
            else utf8DecodeIgnoreF fuel (b2 :: rest2)
        | [] => []
      else if 0xE0 ≤ b ∧ b ≤ 0xEF then
        match rest with
        | b2 :: b3 :: rest2 =>
            if ((b = 0xE0 ∧ 0xA0 ≤ b2 ∧ b2 ≤ 0xBF) ∨
                (b = 0xED ∧ 0x80 ≤ b2 ∧ b2 ≤ 0x9F) ∨
                (b ≠ 0xE0 ∧ b ≠ 0xED ∧ 0x80 ≤ b2 ∧ b2 ≤ 0xBF)) ∧
               (0x80 ≤ b3 ∧ b3 ≤ 0xBF) then
              Char.ofNat ((b - 0xE0) * 4096 + (b2 - 0x80) * 64 + (b3 - 0x80)) ::
                utf8DecodeIgnoreF fuel rest2
            else utf8DecodeIgnoreF fuel (b2 :: b3 :: rest2)
        | other => utf8DecodeIgnoreF fuel other
      else if 0xF0 ≤ b ∧ b ≤ 0xF4 then
        match rest with
        | b2 :: b3 :: b4 :: rest2 =>
            if ((b = 0xF0 ∧ 0x90 ≤ b2 ∧ b2 ≤ 0xBF) ∨
                (b = 0xF4 ∧ 0x80 ≤ b2 ∧ b2 ≤ 0x8F) ∨
                (b ≠ 0xF0 ∧ b ≠ 0xF4 ∧ 0x80 ≤ b2 ∧ b2 ≤ 0xBF)) ∧
               (0x80 ≤ b3 ∧ b3 ≤ 0xBF) ∧ (0x80 ≤ b4 ∧ b4 ≤ 0xBF) then
              Char.ofNat ((b - 0xF0) * 262144 + (b2 - 0x80) * 4096 +
                  (b3 - 0x80) * 64 + (b4 - 0x80)) ::
                utf8DecodeIgnoreF fuel rest2
            else utf8DecodeIgnoreF fuel (b2 :: b3 :: b4 :: rest2)
        | other => utf8DecodeIgnoreF fuel other
      else utf8DecodeIgnoreF fuel rest

/-- `bytes.decode('utf-8', errors='ignore')`. -/
def utf8DecodeIgnore (l : List Nat) : List Char :=
  utf8DecodeIgnoreF l.length l

/-- `base64.urlsafe_b64decode(data).decode('utf-8', errors='ignore')`. -/
def pyB64DecodeToStr (data : String) : Except PyErr String :=
  (b64SixBits data).map fun bits => String.mk (utf8DecodeIgnore (b64Bytes bits))

/-! ### `decode_email_body` (src/amazon_auto.py lines 337-389; the function in
src/category_search.py lines 314-358 is identical) -/

/-- A Gmail API message payload: an optional `body` key (itself with an
optional `data` key), a `mimeType` (defaulted to the empty string by
`part.get('mimeType', '')`), and an optional `parts` key with the nested
parts. -/
inductive Payload where
  | mk (body : Option (Option String)) (mimeType : String)
       (parts : Option (List Payload)) : Payload

mutual

/-- The accumulation pass of `decode_email_body`: the pair
`(html_body, text_body)` as it stands at the final `return` statement.
Any decode error aborts the whole traversal, as in the source, which has no
exception handling. -/
def decodeBodyAcc : Payload → Except PyErr (String × String)
  | .mk body _ parts => do
      let (h0, t0) ←
        match body with
        | some (some data) => do
            let decoded ← pyB64DecodeToStr data
            if isRichText decoded then pure (decoded, "") else pure ("", decoded)
        | _ => pure (("" : String), ("" : String))
      match parts with
      | some ps => decodeParts ps h0 t0
      | none => pure (h0, t0)
termination_by p => (sizeOf p, 0)

/-- `decode_email_body`: return the accumulated HTML body if nonempty,
otherwise the accumulated plain-text body. -/
def decode_email_body (p : Payload) : Except PyErr String := do
  let (h, t) ← decodeBodyAcc p
  pure (if h ≠ "" then h else t)
termination_by (sizeOf p, 1)

/-- The `for part in payload['parts']` loop.  A part that itself has a
`parts` key is decoded recursively and its result is classified rich by the
parent using only the `<html` and `<table` tokens; otherwise a `text/html`
or `text/plain` leaf contributes its decoded data (plus a newline) to the
matching accumulator, a missing `body` key raising `KeyError` and a missing
`data` key contributing nothing. -/
def decodeParts : List Payload → String → String → Except PyErr (String × String)
  | [], h, t => pure (h, t)
  | .mk pbody pmime pparts :: rest, h, t => do
      let (h', t') ←
        match pparts with
            | some ps => do
                let nested ← decode_email_body (.mk pbody pmime (some ps))
                let low := nested.toList.map pyLower
                if strIn "<html".toList low || strIn "<table".toList low then
                  pure (h ++ nested, t)
                else pure (h, t ++ nested)
            | none =>
                if pmime = "text/html" then
                  match pbody with
                  | none => throw PyErr.keyError
                  | some none => pure (h, t)
                  | some (some d) => do
                      let decoded ← pyB64DecodeToStr d
                      pure (h ++ decoded ++ "\n", t)
                else if pmime = "text/plain" then
                  match pbody with
                  | none => throw PyErr.keyError
                  | some none => pure (h, t)
                  | some (some d) => do
                      let decoded ← pyB64DecodeToStr d
                      pure (h, t ++ decoded ++ "\n")
                else pure (h, t)
      decodeParts rest h' t'
termination_by ps _ _ => (sizeOf ps, 0)

end

/-! ### `initialize_google_sheets` (src/amazon_auto.py lines 571-636;
src/category_search.py lines 527-593 computes its row number identically) -/

/-- Value of a decimal digit character (any of the blocks of `isDigitPy`). -/
def digitValPy (c : Char) : Nat :=
  if '0' ≤ c ∧ c ≤ '9' then c.toNat - 48
  else if '０' ≤ c ∧ c ≤ '９' then c.toNat - 0xFF10
  else if '٠' ≤ c ∧ c ≤ '٩' then c.toNat - 0x660
  else 0

/-- Model of Python's `int(str)`: surrounding whitespace is stripped, an
optional sign precedes a nonempty run of decimal digits; anything else raises
`ValueError` (`none`).  Python additionally accepts underscore separators,
which cannot occur in the strings exercised here. -/
def pyIntParse (s : String) : Option Int :=
  let cs := ((s.toList.dropWhile isSpacePy).reverse.dropWhile isSpacePy).reverse
  match cs with
  | [] => none
  | c :: rest =>
      let (neg, digits) :=
        if c = '-' then (true, rest)
        else if c = '+' then (false, rest)
        else (false, c :: rest)
      if !digits.isEmpty && digits.all isDigitPy then
        let n : Nat := digits.foldl (fun acc d => acc * 10 + digitValPy d) 0
        some (if neg then -(n : Int) else (n : Int))
      else none

/-- The row-number computation of `initialize_google_sheets`, applied to the
grid returned by `worksheet.get_all_values()`.  An empty grid or a grid with
only the header row starts at 1; otherwise only the first cell of the last
row is inspected: `int(cell)` on a nonempty cell (a `ValueError` falling back
to the data row count `len(existing_data) - 1`), the literal `0` on an empty
cell, an `IndexError` on a row with no cells likewise falling back to the
data row count; the start is that value plus 1. -/
def initialize_google_sheets_number (existing_data : List (List String)) : Int :=
  match existing_data with
  | [] => 1
  | [_] => 1
  | a :: b :: rest =>
      let rows := a :: b :: rest
      let last_row_data := rows.getLast (by simp)
      let last_number : Int :=
        match last_row_data.head? with
        | none => (rows.length : Int) - 1
        | some cell =>
            if cell = "" then 0
            else
              match pyIntParse cell with
              | some n => n
              | none => (rows.length : Int) - 1
      last_number + 1

/-- The reading of the claim for comparison: the last value in the sequence
column (column 0 of the data rows) that parses as an integer. -/
def lastNumericInColumn (existing_data : List (List String)) : Option Int :=
  ((existing_data.drop 1).filterMap (fun r => r.head?.bind pyIntParse)).getLast?

/-! ### Numeric extraction and discount arithmetic -/

/-- First element of the sequence that is present: models the source's
`for selector in ...: ...; if value: break` loops, whose net effect is the
first truthy extraction. -/
def firstSome {α : Type} : List (Option α) → Option α
  | [] => none
  | some a :: _ => some a
  | none :: t => firstSome t

/-- The first `\d+(?:\.\d+)?` run of a character list. -/
def firstNumberRun : List Char → Option (List Char)
  | [] => none
  | c :: rest =>
      if isDigitPy c then
        let ds := List.takeWhile isDigitPy (c :: rest)
        let after := List.dropWhile isDigitPy (c :: rest)
        match after with
        | dot :: rest2 =>
            if dot = '.' then
              let frac := rest2.takeWhile isDigitPy
              if frac.isEmpty then some ds else some (ds ++ ['.'] ++ frac)
            else some ds
        | [] => some ds
      else firstNumberRun rest

/-- `extract_number` (src/amazon_auto.py lines 751-758; identical in
src/category_search.py): strip the characters of the class `[¥,円JPY\s]`,
then return the first decimal-or-integer run, or `None`. -/
def extract_number (text : String) : Option String :=
  if text = "" then none
  else
    let cleaned := text.toList.filter fun c =>
      !(c = '¥' ∨ c = ',' ∨ c = '円' ∨ c = 'J' ∨ c = 'P' ∨ c = 'Y' ∨ isSpacePy c)
    (firstNumberRun cleaned).map String.mk

/-- Model of Python's `float(str)` on the plain decimal literals this program
feeds it (an optional sign, then digits with an optional fractional part):
the exact rational value, `none` on a `ValueError`.  Python's `float` also
accepts exponents and the words `inf`/`nan`, which cannot occur here, and the
source computes in IEEE doubles; at every value exercised in this
development the double computation rounds to the same formatted strings as
the exact rational one. -/
def pyFloatParse (s : String) : Option ℚ :=
  let cs := ((s.toList.dropWhile isSpacePy).reverse.dropWhile isSpacePy).reverse
  let (neg, body) :=
    match cs with
    | '-' :: rest => (true, rest)
    | '+' :: rest => (false, rest)
    | l => (false, l)
  let ip := body.takeWhile isDigitPy
  let rest := body.dropWhile isDigitPy
  let intVal : ℚ := (ip.foldl (fun acc d => acc * 10 + digitValPy d) 0 : Nat)
  let value : Option ℚ :=
    match rest with
    | [] => if ip.isEmpty then none else some intVal
    | dot :: frac =>
        if dot = '.' ∧ frac.all isDigitPy ∧ !(ip.isEmpty ∧ frac.isEmpty) then
          some (intVal +
            ((frac.foldl (fun acc d => acc * 10 + digitValPy d) 0 : Nat) : ℚ) /
              ((10 : ℚ) ^ frac.length))
        else none
  value.map fun v => if neg then -v else v

/-- Left-pad a numeral with zeros to `d` characters. -/
def padZeros (d : Nat) (s : String) : String :=
  String.mk (List.replicate (d - s.length) '0') ++ s

/-- Python's fixed-point formatting `f'{x:.df}'`: round half to even at `d`
decimal places and print with exactly `d` decimals, a leading `-` kept even
when the digits round to zero. -/
def formatFixed (d : Nat) (q : ℚ) : String :=
  let scaled : ℚ := |q| * ((10 : ℚ) ^ d)
  let fl : ℤ := scaled.floor
  let frac : ℚ := scaled - (fl : ℚ)
  let n : ℤ :=
    if frac > 1 / 2 then fl + 1
    else if frac < 1 / 2 then fl
    else if fl % 2 = 0 then fl else fl + 1
  let a := n.toNat
  let ipart := a / 10 ^ d
  let fpart := a % 10 ^ d
  (if q < 0 then "-" else "") ++ toString ipart ++
    (if d = 0 then "" else "." ++ padZeros d (toString fpart))

/-! ### The per-tier product rows -/

/-- One dictionary produced by `scrape_product_from_listing` (one spreadsheet
row per quantity tier). -/
structure ProductData where
  created_time : String
  asin : String
  name : String
  quantity : String
  reference_price : String
  unit_price : String
  discount_rate : String
  discount_amount : String
  is_first_tier : Option Bool
deriving DecidableEq, Repr

/-- One quantity tier. -/
structure Tier where
  quantity : String
  unit_price : String
deriving DecidableEq, Repr

/-- Python `str.strip()`. -/
def pyStrip (s : String) : String :=
  String.mk (((s.toList.dropWhile isSpacePy).reverse.dropWhile isSpacePy).reverse)

/-- Fuelled core of Python's `str.replace`: replace the leftmost occurrence
and continue after the replacement.  Each step consumes at least one
character of the input, so fuel equal to the input length never runs out. -/
def replaceLF (pat rep : List Char) : Nat → List Char → List Char
  | 0, s => s
  | _ + 1, [] => []
  | fuel + 1, c :: t =>
      if pat.isPrefixOf (c :: t) then
        rep ++ replaceLF pat rep fuel (t.drop (pat.length - 1))
      else c :: replaceLF pat rep fuel t

/-- Python's `str.replace(old, new)` for a nonempty `old`: all
non-overlapping occurrences, left to right.  (Python's behaviour on an empty
`old` — interspersing `new` — is not modelled; no call site uses it.) -/
def pyReplace (s pat rep : String) : String :=
  if pat.isEmpty then s
  else String.mk (replaceLF pat.toList rep.toList s.toList.length s.toList)

/-- `tier_price.replace(',', '').replace('.00', '')` of both variants. -/
def cleanTierPrice (p : String) : String :=
  pyReplace (pyReplace p "," "") ".00" ""

namespace AmazonAuto

/-- One `li._dmFsd_qpItem...` element as the amazon_auto variant reads it:
the two data attributes (an absent attribute is `none`). -/
structure TierItem where
  minQty : Option String
  numericValue : Option String
deriving DecidableEq, Repr

/-- The DOM extraction results feeding `scrape_product_from_listing`
(src/amazon_auto.py lines 851-1048).  Each selector-fallback loop of the
source is represented by its outcome: `asin` is the value left by the ASIN
loop (empty when falsy), `refPrice` and `discountRateBase` are the first
truthy `extract_number` results of their loops (`none` when every selector
failed), `tierItems` are the enumerated quantity-picker items, and
`basePriceTexts` are the element texts tried by the base-price fallback
loop in order. -/
structure ListingInput where
  asin : String
  name : String
  timestamp : String
  refPrice : Option String
  discountRateBase : Option String
  tierItems : List TierItem
  basePriceTexts : List String
deriving Repr

/-- The tier loop of the amazon_auto variant: keep each item whose two data
attributes are present and nonempty, cleaning the price. -/
def extractTiers (items : List TierItem) : List Tier :=
  items.filterMap fun it =>
    match it.minQty, it.numericValue with
    | some q, some p => if q ≠ "" ∧ p ≠ "" then some ⟨q, cleanTierPrice p⟩ else none
    | _, _ => none

/-- Build the dictionary for the tier at index `idx`, including the per-tier
discount computation (src/amazon_auto.py lines 1008-1040). -/
def buildRow (inp : ListingInput) (idx : Nat) (t : Tier) : ProductData :=
  let reference_price := inp.refPrice.getD ""
  let base : ProductData :=
    { created_time := if idx = 0 then inp.timestamp else ""
      asin := if idx = 0 then inp.asin else ""
      name := if idx = 0 then inp.name else ""
      quantity := t.quantity
      reference_price := reference_price
      unit_price := t.unit_price
      discount_rate := ""
      discount_amount := ""
      is_first_tier := some (idx = 0) }
  if reference_price ≠ "" ∧ t.unit_price ≠ "" then
    match pyFloatParse reference_price, pyFloatParse t.unit_price with
    | some ref, some curr =>
        let discount_amount := ref - curr
        let discount_rate := if ref > 0 then discount_amount / ref * 100 else 0
        { base with
            discount_rate := formatFixed 1 discount_rate
            discount_amount := formatFixed 0 discount_amount }
    | _, _ =>
        { base with
            discount_rate := inp.discountRateBase.getD ""
            discount_amount := "" }
  else
    { base with
        discount_rate := inp.discountRateBase.getD ""
        discount_amount := "" }

/-- The `for idx, tier in enumerate(quantity_tiers)` loop. -/
def buildRowsFrom (inp : ListingInput) (idx : Nat) : List Tier → List ProductData
  | [] => []
  | t :: rest => buildRow inp idx t :: buildRowsFrom inp (idx + 1) rest

/-- `scrape_product_from_listing` of src/amazon_auto.py: no truthy ASIN means
an empty result; otherwise the explicit tiers, or (when there are none) one
synthetic tier of quantity `1` at the first successful base-price
extraction; one dictionary per tier. -/
def scrape_product_from_listing (inp : ListingInput) : List ProductData :=
  if inp.asin = "" then []
  else
    let tiers0 := extractTiers inp.tierItems
    let quantity_tiers :=
      if tiers0.isEmpty then
        match firstSome (inp.basePriceTexts.map extract_number) with
        | some bp => [⟨"1", bp⟩]
        | none => []
      else tiers0
    buildRowsFrom inp 0 quantity_tiers

end AmazonAuto

namespace CategorySearch

/-- One quantity-picker item as the category_search variant reads it: the
displayed quantity text (`div ... span` inner text, carrying any `+`
marker), the `data-minimum-quantity` attributes of the inner div and of the
`li` itself, and the `data-numeric-value` price attribute. -/
structure TierItem where
  qtyText : Option String
  qtyAttr : Option String
  liAttr : Option String
  numericValue : Option String
deriving DecidableEq, Repr

/-- DOM extraction results feeding the category_search
`scrape_product_from_listing` (src/category_search.py lines 896-1151), in
the same representation as the amazon_auto variant. -/
structure ListingInput where
  asin : String
  name : String
  timestamp : String
  refPrice : Option String
  discountRateBase : Option String
  tierItems : List TierItem
  basePriceTexts : List String
deriving Repr

/-- The displayed-label-first quantity of one tier item: the stripped span
text when nonempty, else the div attribute, else the `li` attribute, each
taken only when truthy. -/
def tierQuantity (it : TierItem) : Option String :=
  let fromText :=
    match it.qtyText with
    | some txt => let t := pyStrip txt; if t ≠ "" then some t else none
    | none => none
  match fromText with
  | some q => some q
  | none =>
      match it.qtyAttr with
      | some a => if a ≠ "" then some a else (it.liAttr.bind fun b => if b ≠ "" then some b else none)
      | none => it.liAttr.bind fun b => if b ≠ "" then some b else none

/-- The tier loop of the category_search variant: ¥-prefixed cleaned price. -/
def extractTiers (items : List TierItem) : List Tier :=
  items.filterMap fun it =>
    match tierQuantity it, it.numericValue with
    | some q, some p =>
        if p ≠ "" then some ⟨q, "¥" ++ cleanTierPrice p⟩ else none
    | _, _ => none

/-- Build the dictionary for the tier at index `idx` in the category_search
variant (src/category_search.py lines 1097-1143): the reference price is
¥-prefixed in the row, the discount rate carries a `%` suffix and the
discount amount a `¥` prefix, and the float conversion strips `¥` and
commas from the tier price. -/
def buildRow (inp : ListingInput) (idx : Nat) (t : Tier) : ProductData :=
  let reference_price := inp.refPrice.getD ""
  let reference_price_with_yen := if reference_price ≠ "" then "¥" ++ reference_price else ""
  let base : ProductData :=
    { created_time := if idx = 0 then inp.timestamp else ""
      asin := if idx = 0 then inp.asin else ""
      name := if idx = 0 then inp.name else ""
      quantity := t.quantity
      reference_price := reference_price_with_yen
      unit_price := t.unit_price
      discount_rate := ""
      discount_amount := ""
      is_first_tier := some (idx = 0) }
  if reference_price ≠ "" ∧ t.unit_price ≠ "" then
    match pyFloatParse reference_price,
        pyFloatParse (pyReplace (pyReplace t.unit_price "¥" "") "," "") with
    | some ref, some curr =>
        let discount_amount := ref - curr
        let discount_rate := if ref > 0 then discount_amount / ref * 100 else 0
        { base with
            discount_rate := formatFixed 1 discount_rate ++ "%"
            discount_amount := "¥" ++ formatFixed 0 discount_amount }
    | _, _ =>
        { base with
            discount_rate :=
              match inp.discountRateBase with
              | some b => b ++ "%"
              | none => ""
            discount_amount := "" }
  else
    { base with
        discount_rate :=
          match inp.discountRateBase with
          | some b => b ++ "%"
          | none => ""
        discount_amount := "" }

/-- The `for idx, tier in enumerate(quantity_tiers)` loop. -/
def buildRowsFrom (inp : ListingInput) (idx : Nat) : List Tier → List ProductData
  | [] => []
  | t :: rest => buildRow inp idx t :: buildRowsFrom inp (idx + 1) rest

/-- `scrape_product_from_listing` of src/category_search.py: same structure
as the amazon_auto variant, with the ¥-prefixed synthetic base-price tier. -/
def scrape_product_from_listing (inp : ListingInput) : List ProductData :=
  if inp.asin = "" then []
  else
    let tiers0 := extractTiers inp.tierItems
    let quantity_tiers :=
      if tiers0.isEmpty then
        match firstSome (inp.basePriceTexts.map extract_number) with
        | some bp => [⟨"1", "¥" ++ bp⟩]
        | none => []
      else tiers0
    buildRowsFrom inp 0 quantity_tiers

end CategorySearch

/-! ### `append_product_to_sheets` and the scanning loop of
`scrape_all_products` (src/amazon_auto.py lines 639-679 and 1051-1184) -/

/-- One spreadsheet cell as handed to `worksheet.append_rows`: the sequence
number is appended as a number, everything else as a string. -/
inductive Cell where
  | num (n : Int) : Cell
  | str (s : String) : Cell
deriving DecidableEq, Repr

/-- The `for idx, product in enumerate(product_rows)` loop of
`append_product_to_sheets`: one row per tier dictionary, the sequence number
in the first column exactly of the rows flagged (or, for a dictionary
lacking the key, defaulted by `idx == 0`) as first tier, the others getting
an empty string. -/
def append_rows_from (idx : Nat) (current_number : Int) : List ProductData → List (List Cell)
  | [] => []
  | product :: rest =>
      let isFirst := product.is_first_tier.getD (idx = 0)
      [(if isFirst then Cell.num current_number else Cell.str ""),
       Cell.str product.created_time, Cell.str product.asin, Cell.str product.name,
       Cell.str product.quantity, Cell.str product.reference_price,
       Cell.str product.unit_price, Cell.str product.discount_rate,
       Cell.str product.discount_amount] :: append_rows_from (idx + 1) current_number rest

/-- The rows built by `append_product_to_sheets` for one product. -/
def append_built_rows (product_rows : List ProductData) (current_number : Int) :
    List (List Cell) :=
  append_rows_from 0 current_number product_rows

/-- `append_product_to_sheets`: the `worksheet.append_rows` call either
succeeds (modelled by `appendOk`), after which the function returns
`current_number + 1` whatever the number of tier rows, or raises, which the
function catches and turns into `None`. -/
def append_product_to_sheets (appendOk : Bool) (product_rows : List ProductData)
    (current_number : Int) : Option Int :=
  if appendOk then
    let _ := append_built_rows product_rows current_number
    some (current_number + 1)
  else none

/-- What the scanner sees of one rendered product container: the `data-asin`
attribute of its first `[data-asin]` descendant (`none` when the element or
attribute is missing), the rows `scrape_product_from_listing` extracts from
it, and whether the sheet append for it would succeed. -/
structure Container where
  asin : Option String
  rows : List ProductData
  appendOk : Bool
deriving Repr

/-- The scanner state threaded through `scrape_all_products`. -/
structure ScanState where
  scraped_asins : List String
  current_number : Int
  total_rows_sent : Nat
deriving DecidableEq, Repr

/-- Per-container processing of the scanning loop (src/amazon_auto.py lines
1109-1152).  Returns the new state, the batches actually written to the
sheet (each tagged with the `current_number` argument of the append call),
and whether `new_products_found` was incremented.  The ASIN joins
`scraped_asins` before any extraction or export outcome is known; the
success branch is guarded by the truthiness of the returned number. -/
def processContainer (st : ScanState) (c : Container) :
    ScanState × List (Int × List (List Cell)) × Bool :=
  match c.asin with
  | none => (st, [], false)
  | some a =>
      if a = "" ∨ a ∈ st.scraped_asins ∨ a.length ≠ 10 then (st, [], false)
      else
        let st1 := { st with scraped_asins := st.scraped_asins ++ [a] }
        if c.rows.isEmpty then (st1, [], false)
        else
          let sent :=
            if c.appendOk then [(st1.current_number, append_built_rows c.rows st1.current_number)]
            else []
          match append_product_to_sheets c.appendOk c.rows st1.current_number with
          | some new_number =>
              if new_number ≠ 0 then
                ({ st1 with
                    current_number := new_number
                    total_rows_sent := st1.total_rows_sent + c.rows.length },
                 sent, true)
              else (st1, sent, false)
          | none => (st1, sent, false)

/-- Process the containers of one scan iteration in order, concatenating the
sheet batches and counting the `new_products_found` increments. -/
def runContainers (st : ScanState) :
    List Container → ScanState × List (Int × List (List Cell)) × Nat
  | [] => (st, [], 0)
  | c :: cs =>
      let (st1, sent1, counted) := processContainer st c
      let (st2, sent2, n) := runContainers st1 cs
      (st2, sent1 ++ sent2, (if counted then 1 else 0) + n)

/-- The scroll/pagination actions the loop can perform. -/
inductive ScanAction where
  | wheelScroll : ScanAction
  | fullHeightScroll : ScanAction
  | clickNext : ScanAction
deriving DecidableEq, Repr

/-- Why a loop run stopped. -/
inductive StopReason where
  | endOfResults : StopReason
  | structureAbort : StopReason
  | scriptEnd : StopReason
deriving DecidableEq, Repr

/-- The loop-level state of the scanners. -/
structure LoopState where
  st : ScanState
  scroll_count : Nat
  no_new : Nat
deriving DecidableEq, Repr

/-- One iteration of the `while True` loop of `scrape_all_products`
(src/amazon_auto.py lines 1084-1172), driven by the containers the page
currently renders: an empty enumeration scrolls and aborts after 50 fruitless
scrolls; otherwise the containers are processed, a productive iteration
resets the no-new counter, and the fifth consecutive unproductive iteration
terminates the loop at once — no action of any kind is emitted between
reaching the threshold and stopping. -/
def autoStep (ls : LoopState) (containers : List Container) :
    LoopState × List ScanAction × Option StopReason :=
  if containers.isEmpty then
    let ls' := { ls with scroll_count := ls.scroll_count + 1 }
    (ls', [.wheelScroll], if ls'.scroll_count > 50 then some .structureAbort else none)
  else
    let (st', _sent, newFound) := runContainers ls.st containers
    if newFound > 0 then
      ({ st := st', scroll_count := ls.scroll_count + 1, no_new := 0 }, [.wheelScroll], none)
    else
      let noNew' := ls.no_new + 1
      if noNew' ≥ 5 then
        ({ st := st', scroll_count := ls.scroll_count, no_new := noNew' }, [], some .endOfResults)
      else
        ({ st := st', scroll_count := ls.scroll_count + 1, no_new := noNew' },
         [.wheelScroll], none)

/-- Run the amazon_auto scanning loop over a script of iteration yields,
collecting the emitted actions; a script that runs out ends the run without
a loop-decided stop. -/
def runAuto (ls : LoopState) : List (List Container) → LoopState × List ScanAction × StopReason
  | [] => (ls, [], .scriptEnd)
  | it :: rest =>
      let (ls', acts, stop?) := autoStep ls it
      match stop? with
      | some r => (ls', acts, r)
      | none =>
          let (lsf, acts2, r) := runAuto ls' rest
          (lsf, acts ++ acts2, r)

/-- What one iteration of the category_search loop can observe beyond its
containers: whether an enabled pagination button is visible, and the ASINs of
the containers enumerated by the final verification pass. -/
structure CatIteration where
  containers : List Container
  nextButton : Bool
  finalCheckAsins : List (Option String)
deriving Repr

/-- The final verification pass of `search_and_scrape_products`
(src/category_search.py lines 1317-1329): scan the re-enumerated containers
for any truthy 10-character ASIN not yet scraped. -/
def finalCheckFound (scraped : List String) (asins : List (Option String)) : Bool :=
  asins.any fun a? =>
    match a? with
    | some a => a ≠ "" ∧ ¬ a ∈ scraped ∧ a.length = 10
    | none => false

/-- One iteration of the `while True` loop of `search_and_scrape_products`
(src/category_search.py lines 1216-1342): like the amazon_auto loop, except
that an unproductive iteration first clicks a visible pagination button
(resetting the counter), and that reaching the five-iteration threshold
performs one final full-height scroll and one verification pass, resuming
when that pass still finds an unscraped ASIN and stopping otherwise. -/
def catStep (ls : LoopState) (it : CatIteration) :
    LoopState × List ScanAction × Option StopReason :=
  if it.containers.isEmpty then
    let ls' := { ls with scroll_count := ls.scroll_count + 1 }
    (ls', [.wheelScroll], if ls'.scroll_count > 50 then some .structureAbort else none)
  else
    let (st', _sent, newFound) := runContainers ls.st it.containers
    if newFound > 0 then
      ({ st := st', scroll_count := ls.scroll_count + 1, no_new := 0 }, [.wheelScroll], none)
    else
      let noNew' := ls.no_new + 1
      if it.nextButton then
        ({ st := st', scroll_count := ls.scroll_count, no_new := 0 }, [.clickNext], none)
      else if noNew' ≥ 5 then
        if finalCheckFound st'.scraped_asins it.finalCheckAsins then
          ({ st := st', scroll_count := ls.scroll_count + 1, no_new := 0 },
           [.fullHeightScroll, .wheelScroll], none)
        else
          ({ st := st', scroll_count := ls.scroll_count, no_new := noNew' },
           [.fullHeightScroll], some .endOfResults)
      else
        ({ st := st', scroll_count := ls.scroll_count + 1, no_new := noNew' },
         [.wheelScroll], none)

/-- The consecutive sequence `start, start+1, ..., start+n-1`. -/
def seqFrom (start : Int) : Nat → List Int
  | 0 => []
  | n + 1 => start :: seqFrom (start + 1) n

/-! ## Theorems

Everything below is proof; the embedding of the source ends here. -/

/-! ### Consumption bounds for the matcher (used for termination and for the
candidate-shape property) -/

theorem starGreedy_bound {α : Type} (p : Char → Bool) :
    ∀ (s : List Char) (k : List Char → Option α) (r : α),
      starGreedy p s k = some r → ∃ s', s'.length ≤ s.length ∧ k s' = some r := by
  intro s
  induction s with
  | nil =>
      intro k r h
      exact ⟨[], le_refl _, h⟩
  | cons c rest ih =>
      intro k r h
      simp only [starGreedy] at h
      by_cases hp : p c
      · simp only [hp, if_true] at h
        cases hsg : starGreedy p rest k with
        | some r' =>
            rw [hsg] at h
            cases h
            obtain ⟨s', hle, hk⟩ := ih k r hsg
            exact ⟨s', Nat.le_succ_of_le hle, hk⟩
        | none =>
            rw [hsg] at h
            exact ⟨c :: rest, le_refl _, h⟩
      · simp only [hp, if_false] at h
        exact ⟨c :: rest, le_refl _, h⟩

theorem starLazy_bound {α : Type} (p : Char → Bool) :
    ∀ (s : List Char) (k : List Char → Option α) (r : α),
      starLazy p s k = some r → ∃ s', s'.length ≤ s.length ∧ k s' = some r := by
  intro s
  induction s with
  | nil =>
      intro k r h
      simp only [starLazy] at h
      cases hk : k [] with
      | some r' => rw [hk] at h; exact ⟨[], le_refl _, hk.trans h⟩
      | none => rw [hk] at h; exact absurd h (by simp)
  | cons c rest ih =>
      intro k r h
      simp only [starLazy] at h
      cases hk : k (c :: rest) with
      | some r' =>
          rw [hk] at h
          cases h
          exact ⟨c :: rest, le_refl _, hk⟩
      | none =>
          rw [hk] at h
          by_cases hp : p c
          · simp only [hp, if_true] at h
            obtain ⟨s', hle, hks⟩ := ih k r h
            exact ⟨s', Nat.le_succ_of_le hle, hks⟩
          · simp only [hp, if_false] at h
            exact absurd h (by simp)

theorem matchRE_bound {α : Type} :
    ∀ (re : RE) (s : List Char) (k : List Char → Option α) (r : α),
      matchRE re s k = some r → ∃ s', s'.length ≤ s.length ∧ k s' = some r := by
  intro re
  induction re with
  | eps =>
      intro s k r h
      exact ⟨s, le_refl _, h⟩
  | cls p =>
      intro s k r h
      cases s with
      | nil => exact absurd h (by simp [matchRE])
      | cons c rest =>
          simp only [matchRE] at h
          by_cases hp : p c
          · simp only [hp, if_true] at h
            exact ⟨rest, Nat.le_succ _, h⟩
          · simp only [hp, if_false] at h
            exact absurd h (by simp)
  | seq a b iha ihb =>
      intro s k r h
      simp only [matchRE] at h
      obtain ⟨s1, h1, hb⟩ := iha s _ r h
      obtain ⟨s2, h2, hk⟩ := ihb s1 _ r hb
      exact ⟨s2, h2.trans h1, hk⟩
  | alt a b iha ihb =>
      intro s k r h
      simp only [matchRE] at h
      cases ha : matchRE a s k with
      | some r' =>
          rw [ha] at h
          cases h
          exact iha s k r ha
      | none =>
          rw [ha] at h
          exact ihb s k r h
  | opt a iha =>
      intro s k r h
      simp only [matchRE] at h
      cases ha : matchRE a s k with
      | some r' =>
          rw [ha] at h
          cases h
          exact iha s k r ha
      | none =>
          rw [ha] at h
          exact ⟨s, le_refl _, h⟩
  | star p =>
      intro s k r h
      exact starGreedy_bound p s k r h
  | lazyStar p =>
      intro s k r h
      exact starLazy_bound p s k r h

theorem take6Digits_eq_some {s g : List Char} {rest : List Char}
    (h : take6Digits s = some (g, rest)) :
    g.length = 6 ∧ g.all isDigitPy = true ∧ rest.length + 6 = s.length := by
  unfold take6Digits at h
  by_cases hc : ((s.take 6).length = 6 && (s.take 6).all isDigitPy) = true
  · rw [if_pos hc] at h
    cases h
    simp only [Bool.and_eq_true, decide_eq_true_eq] at hc
    refine ⟨hc.1, hc.2, ?_⟩
    have hlen : s.length ≥ 6 := by
      have := List.length_take 6 s
      omega
    simp [List.length_drop]
    omega
  · rw [if_neg hc] at h
    exact absurd h (by simp)

theorem tryCaptureR_eq_some {pre post : RE} {s g rest : List Char}
    (h : tryCaptureR pre post s = some (g, rest)) :
    g.length = 6 ∧ g.all isDigitPy = true ∧ rest.length + 6 ≤ s.length := by
  unfold tryCaptureR at h
  obtain ⟨s1, h1, hk⟩ := matchRE_bound pre s _ _ h
  cases h6 : take6Digits s1 with
  | none => rw [h6] at hk; exact absurd hk (by simp)
  | some gr =>
      obtain ⟨g', s2⟩ := gr
      rw [h6] at hk
      obtain ⟨hg6, hgd, hlen⟩ := take6Digits_eq_some h6
      obtain ⟨s3, h3, hres⟩ := matchRE_bound post s2 _ _ hk
      cases hres
      exact ⟨hg6, hgd, by omega⟩

theorem findAllSpansF_irrel : ∀ (f1 f2 : Nat) (s : List Char),
    s.length ≤ f1 → s.length ≤ f2 → findAllSpansF f1 s = findAllSpansF f2 s := by
  intro f1
  induction f1 with
  | zero =>
      intro f2 s h1 _
      have hs : s = [] := List.length_eq_zero.mp (Nat.le_zero.mp h1)
      subst hs
      cases f2 <;> rfl
  | succ n ih =>
      intro f2 s h1 h2
      cases s with
      | nil => cases f2 <;> rfl
      | cons c t =>
          cases f2 with
          | zero => simp at h2
          | succ m =>
              have ht : t.length ≤ n := by simp at h1; omega
              have htm : t.length ≤ m := by simp at h2; omega
              simp only [findAllSpansF]
              cases hcap : tryCaptureR preSpan postSpan (c :: t) with
              | some gr =>
                  obtain ⟨g, rest⟩ := gr
                  obtain ⟨-, -, hlen⟩ := tryCaptureR_eq_some hcap
                  simp only [List.length_cons] at hlen
                  show g :: findAllSpansF n rest = g :: findAllSpansF m rest
                  rw [ih m rest (by omega) (by omega)]
              | none =>
                  show findAllSpansF n t = findAllSpansF m t
                  exact ih m t ht htm

/-- The recurrence `findAllSpans` satisfies: exactly the `re.findall` scan. -/
theorem findAllSpans_eq (s : List Char) :
    findAllSpans s =
      match tryCaptureR preSpan postSpan s with
      | some (g, rest) => g :: findAllSpans rest
      | none =>
          match s with
          | [] => []
          | _ :: t => findAllSpans t := by
  unfold findAllSpans
  cases s with
  | nil => rfl
  | cons c t =>
      simp only [List.length_cons, findAllSpansF]
      cases hcap : tryCaptureR preSpan postSpan (c :: t) with
      | some gr =>
          obtain ⟨g, rest⟩ := gr
          obtain ⟨-, -, hlen⟩ := tryCaptureR_eq_some hcap
          simp only [List.length_cons] at hlen
          show g :: findAllSpansF t.length rest = g :: findAllSpansF rest.length rest
          rw [findAllSpansF_irrel t.length rest.length rest (by omega) (by omega)]
      | none => rfl

theorem utf8DecodeIgnoreF_irrel : ∀ (f1 f2 : Nat) (l : List Nat),
    l.length ≤ f1 → l.length ≤ f2 → utf8DecodeIgnoreF f1 l = utf8DecodeIgnoreF f2 l := by
  intro f1
  induction f1 with
  | zero =>
      intro f2 l h1 _
      have hl : l = [] := List.length_eq_zero.mp (Nat.le_zero.mp h1)
      subst hl
      cases f2 <;> rfl
  | succ n ih =>
      intro f2 l h1 h2
      cases l with
      | nil => cases f2 <;> rfl
      | cons b rest =>
          cases f2 with
          | zero => simp at h2
          | succ m =>
              have hr : rest.length ≤ n := by simp at h1; omega
              have hrm : rest.length ≤ m := by simp at h2; omega
              simp only [utf8DecodeIgnoreF]
              split
              · rw [ih m rest hr hrm]
              · split
                · cases rest with
                  | nil => rfl
                  | cons b2 rest2 =>
                      have hr2 : rest2.length ≤ n := by simp at hr ⊢; omega
                      have hr2m : rest2.length ≤ m := by simp at hrm ⊢; omega
                      simp only
                      split
                      · rw [ih m rest2 hr2 hr2m]
                      · rw [ih m (b2 :: rest2) hr hrm]
                · split
                  · cases rest with
                    | nil => exact ih m [] (by simp) (by simp)
                    | cons b2 rest2 =>
                        cases rest2 with
                        | nil => exact ih m [b2] (by simpa using hr) (by simpa using hrm)
                        | cons b3 rest3 =>
                            have hr3 : rest3.length ≤ n := by simp at hr ⊢; omega
                            have hr3m : rest3.length ≤ m := by simp at hrm ⊢; omega
                            simp only
                            split
                            · rw [ih m rest3 hr3 hr3m]
                            · rw [ih m (b2 :: b3 :: rest3) hr hrm]
                  · split
                    · cases rest with
                      | nil => exact ih m [] (by simp) (by simp)
                      | cons b2 rest2 =>
                          cases rest2 with
                          | nil => exact ih m [b2] (by simpa using hr) (by simpa using hrm)
                          | cons b3 rest3 =>
                              cases rest3 with
                              | nil =>
                                  exact ih m [b2, b3] (by simpa using hr) (by simpa using hrm)
                              | cons b4 rest4 =>
                                  have hr4 : rest4.length ≤ n := by simp at hr ⊢; omega
                                  have hr4m : rest4.length ≤ m := by simp at hrm ⊢; omega
                                  simp only
                                  split
                                  · rw [ih m rest4 hr4 hr4m]
                                  · rw [ih m (b2 :: b3 :: b4 :: rest4) hr hrm]
                    · rw [ih m rest hr hrm]


/-! ### Candidate shape (claim C1) -/

theorem checkOtp_shape {g : List Char} {r : String} (h : checkOtp g = some r) :
    r.length = 6 ∧ r.toList.all isDigitPy = true := by
  unfold checkOtp at h
  by_cases hc : (g.length = 6 && pyStrIsDigit g) = true
  · rw [if_pos hc] at h
    cases h
    simp only [Bool.and_eq_true, decide_eq_true_eq, pyStrIsDigit] at hc
    constructor
    · simpa [String.length] using hc.1
    · simpa [String.toList] using hc.2.2
  · rw [if_neg hc] at h
    exact absurd h (by simp)

theorem tryPat_shape {o : Option (List Char)} {r : String} (h : tryPat o = some r) :
    r.length = 6 ∧ r.toList.all isDigitPy = true := by
  cases o with
  | none => exact absurd h (by simp [tryPat])
  | some g => exact checkOtp_shape h

theorem method2Spans_shape {cs : List Char} {r : String} :
    ∀ {l : List (List Char)}, method2Spans cs l = some r →
      r.length = 6 ∧ r.toList.all isDigitPy = true := by
  intro l
  induction l with
  | nil => intro h; exact absurd h (by simp [method2Spans])
  | cons g rest ih =>
      intro h
      unfold method2Spans at h
      by_cases hc : ((g.length = 6 && pyStrIsDigit g) && spanContextOk cs g) = true
      · rw [if_pos hc] at h
        cases h
        simp only [Bool.and_eq_true, decide_eq_true_eq, pyStrIsDigit] at hc
        constructor
        · simpa [String.length] using hc.1.1
        · simpa [String.toList] using hc.1.2.2
      · rw [if_neg hc] at h
        exact ih h

theorem extract_otp_from_html_shape {s : String} {r : String}
    (h : extract_otp_from_html s = some r) :
    r.length = 6 ∧ r.toList.all isDigitPy = true := by
  unfold extract_otp_from_html at h
  by_cases hs : s = ""
  · rw [if_pos hs] at h; exact absurd h (by simp)
  · rw [if_neg hs] at h
    cases hm : tryPat (reSearch preTable postSpan s.toList) with
    | some o =>
        simp only [hm] at h
        cases h
        exact tryPat_shape hm
    | none =>
        simp only [hm] at h
        exact method2Spans_shape h

theorem plainPatternsScan_shape {cs : List Char} {r : String}
    (h : plainPatternsScan cs = some r) :
    r.length = 6 ∧ r.toList.all isDigitPy = true := by
  unfold plainPatternsScan at h
  cases h1 : tryPat (reSearch pre1 .eps cs) with
  | some o => rw [h1] at h; cases h; exact tryPat_shape h1
  | none =>
      rw [h1] at h
      cases h2 : tryPat (reSearch pre2 .eps cs) with
      | some o => rw [h2] at h; cases h; exact tryPat_shape h2
      | none =>
          rw [h2] at h
          cases h3 : tryPat (reSearch pre3 .eps cs) with
          | some o => rw [h3] at h; cases h; exact tryPat_shape h3
          | none =>
              rw [h3] at h
              exact tryPat_shape h

theorem extract_otp_from_text_shape {s : String} {r : String}
    (h : extract_otp_from_text s = some r) :
    r.length = 6 ∧ r.toList.all isDigitPy = true := by
  unfold extract_otp_from_text at h
  by_cases hs : s = ""
  · rw [if_pos hs] at h; exact absurd h (by simp)
  · rw [if_neg hs] at h
    cases hm : (if isRichText s then extract_otp_from_html s else none) with
    | some o =>
        simp only [hm] at h
        by_cases ho : o = ""
        · rw [if_pos ho] at h
          exact plainPatternsScan_shape h
        · rw [if_neg ho] at h
          cases h
          by_cases hr : isRichText s
          · rw [if_pos hr] at hm; exact extract_otp_from_html_shape hm
          · rw [if_neg hr] at hm; exact absurd hm (by simp)
    | none =>
        simp only [hm] at h
        exact plainPatternsScan_shape h

/-- C1 (amended): whenever `extract_otp_from_text` or its HTML helper
`extract_otp_from_html` returns a candidate, that candidate is a string of
exactly six characters, each of which is a decimal digit in the sense of
Python's `\d` class — so never 5 or 7 digits and never a separator.  The
digits need not be ASCII: the claim's stronger ASCII form is refuted by
`claim_C1_counterexample`. -/
theorem claim_C1_candidate_shape (text r : String)
    (h : extract_otp_from_html text = some r ∨ extract_otp_from_text text = some r) :
    r.length = 6 ∧ r.toList.all isDigitPy = true := by
  cases h with
  | inl h => exact extract_otp_from_html_shape h
  | inr h => exact extract_otp_from_text_shape h

/-- C1 counterexample: on a six-character run of fullwidth digits (Unicode
decimal digits, as common in Japanese mail), the extractor returns the run
itself, which is not a string of ASCII digits. -/
theorem claim_C1_counterexample :
    extract_otp_from_text "１２３４５６" = some "１２３４５６" ∧
    ¬ ("１２３４５６".toList.all isAsciiDigit = true) := by
  constructor
  · decide
  · decide

/-- C1 witness: the amended shape theorem applied to a concrete extraction. -/
theorem claim_C1_witness :
    ("482913" : String).length = 6 ∧ ("482913" : String).toList.all isDigitPy = true :=
  claim_C1_candidate_shape "確認コード: 482913" "482913" (Or.inr (by decide))

/-! ### Strategy dispatch on rich bodies (claim C3) -/

/-- C3 (amended): on a body classified rich, the HTML strategies 1-2 are
attempted first and any truthy result of theirs is returned; but when they
produce nothing, the extractor does not stop — it falls through to the
plain-text strategies 3-4 on the same rich text, exactly as for a plain body.
(The claim's statement that only strategies 1-2 are attempted on a rich body
is refuted by `claim_C3_counterexample`.) -/
theorem claim_C3_rich_dispatch (text : String) (hr : isRichText text = true)
    (hne : text ≠ "") :
    (∀ c, extract_otp_from_html text = some c → c ≠ "" →
        extract_otp_from_text text = some c) ∧
    (extract_otp_from_html text = none →
        extract_otp_from_text text = plainPatternsScan text.toList) := by
  constructor
  · intro c hc hcne
    unfold extract_otp_from_text
    rw [if_neg hne]
    simp only [hr, if_true, hc, if_neg hcne]
  · intro hc
    unfold extract_otp_from_text
    rw [if_neg hne]
    simp only [hr, if_true, hc]

/-- C3 counterexample: a body classified rich (it contains `<table`) on which
both HTML strategies fail still yields a candidate, found by plain-text
strategy 3 — so strategies 3-4 are attempted on rich bodies, contrary to the
claim. -/
theorem claim_C3_counterexample :
    isRichText "<table>コード：123456" = true ∧
    extract_otp_from_html "<table>コード：123456" = none ∧
    extract_otp_from_text "<table>コード：123456" = some "123456" := by
  refine ⟨by decide, by decide, by decide⟩

/-- C3 witness: the amended dispatch theorem applied to a concrete rich body
whose HTML strategies fail. -/
theorem claim_C3_witness :
    extract_otp_from_text "<table>確認コードは482913です" =
      plainPatternsScan ("<table>確認コードは482913です" : String).toList :=
  (claim_C3_rich_dispatch "<table>確認コードは482913です" (by decide) (by decide)).2 (by decide)

/-! ### Decoder behaviour (claims C2 and C4) -/

theorem exceptBind_ok {ε α β : Type} (a : α) (f : α → Except ε β) :
    (Except.ok a : Except ε α) >>= f = f a := rfl

theorem exceptBind_error {ε α β : Type} (e : ε) (f : α → Except ε β) :
    (Except.error e : Except ε α) >>= f = Except.error e := rfl

theorem exceptMap_ok {ε α β : Type} (f : α → β) (a : α) :
    f <$> (Except.ok a : Except ε α) = Except.ok (f a) := rfl

theorem exceptMap_error {ε α β : Type} (f : α → β) (e : ε) :
    f <$> (Except.error e : Except ε α) = Except.error e := rfl

theorem append_newline_ne_empty (s : String) : s ++ "\n" ≠ "" := by
  intro h
  have h2 := congrArg String.length h
  simp [String.length_append] at h2
  exact absurd h2.2 (by decide)

/-- C2 (amended): the decoder prefers rich content, but richness of a nested
result is re-judged by the parent using only the `<html` and `<table` tokens
(not `<body`).  For any two-part tree whose first part wraps a `text/html`
leaf and whose second part is a `text/plain` leaf: when the nested result
contains `<html` it wins and the plain part is dropped; but when the nested
result is rich only by the `<body` token (or not rich at all) it is
accumulated as plain text and the function returns the plain accumulation —
nested content and plain sibling concatenated — although rich content exists
in the tree.  The claim as stated is refuted by `claim_C2_counterexample`. -/
theorem claim_C2_rich_precedence (mt0 mtn d1 d2 s1 s2 : String)
    (h1 : pyB64DecodeToStr d1 = .ok s1) (h2 : pyB64DecodeToStr d2 = .ok s2) :
    (strIn "<html".toList ((s1 ++ "\n").toList.map pyLower) = false →
     strIn "<table".toList ((s1 ++ "\n").toList.map pyLower) = false →
      decode_email_body (.mk none mt0 (some
        [.mk none mtn (some [.mk (some (some d1)) "text/html" none]),
         .mk (some (some d2)) "text/plain" none])) = .ok (s1 ++ "\n" ++ s2 ++ "\n")) ∧
    (strIn "<html".toList ((s1 ++ "\n").toList.map pyLower) = true →
      decode_email_body (.mk none mt0 (some
        [.mk none mtn (some [.mk (some (some d1)) "text/html" none]),
         .mk (some (some d2)) "text/plain" none])) = .ok (s1 ++ "\n")) := by
  constructor
  · intro hh ht
    simp [String.toList, decode_email_body, decodeBodyAcc, decodeParts, h1, h2,
      exceptBind_ok, exceptBind_error, exceptMap_ok, exceptMap_error,
      append_newline_ne_empty, String.append_assoc] at hh ht ⊢
    simp [hh, ht, append_newline_ne_empty]
  · intro hh
    simp [String.toList, decode_email_body, decodeBodyAcc, decodeParts, h1, h2,
      exceptBind_ok, exceptBind_error, exceptMap_ok, exceptMap_error,
      append_newline_ne_empty, String.append_assoc] at hh ⊢
    simp [hh, append_newline_ne_empty]

/-- C2 counterexample: a tree whose nested part decodes to
`<body>111111</body>` — rich content by the decoder's own top-level
classifier — with a plain sibling `222222`.  The rich accumulation stays
empty, and the returned value is the plain accumulation containing both, not
the rich content: rich did not win. -/
theorem claim_C2_counterexample :
    decodeBodyAcc (.mk none "" (some
      [.mk none "multipart/alternative"
         (some [.mk (some (some "PGJvZHk-MTExMTExPC9ib2R5Pg==")) "text/html" none]),
       .mk (some (some "MjIyMjIy")) "text/plain" none])) =
      .ok ("", "<body>111111</body>\n222222\n") ∧
    decode_email_body (.mk none "" (some
      [.mk none "multipart/alternative"
         (some [.mk (some (some "PGJvZHk-MTExMTExPC9ib2R5Pg==")) "text/html" none]),
       .mk (some (some "MjIyMjIy")) "text/plain" none])) =
      .ok "<body>111111</body>\n222222\n" ∧
    isRichText "<body>111111</body>\n" = true ∧
    (Except.ok "<body>111111</body>\n222222\n" : Except PyErr String) ≠
      .ok "<body>111111</body>\n" := by
  refine ⟨?_, ?_, by decide, by decide⟩
  · simp only [decodeBodyAcc, decodeParts, decode_email_body]
    decide
  · simp only [decode_email_body, decodeBodyAcc, decodeParts]
    decide

/-- C2 witness: the amended precedence theorem applied to the concrete
payloads of the counterexample tree. -/
theorem claim_C2_witness :
    decode_email_body (.mk none "m0" (some
      [.mk none "mn" (some [.mk (some (some "PGJvZHk-MTExMTExPC9ib2R5Pg==")) "text/html" none]),
       .mk (some (some "MjIyMjIy")) "text/plain" none])) =
      .ok (("<body>111111</body>" : String) ++ "\n" ++ "222222" ++ "\n") :=
  (claim_C2_rich_precedence "m0" "mn" _ _ _ _ (by decide) (by decide)).1
    (by decide) (by decide)

/-- C4 (amended): `decode_email_body` performs no error handling of its own: a
body payload whose base64 decoding raises propagates the exception out of the
whole function, and a failing part aborts the traversal of the remaining
parts (its caller catches only `HttpError`s, so the exception escapes the
decoding stage entirely).  The claim as stated is refuted by
`claim_C4_counterexample`. -/
theorem claim_C4_error_propagation (d : String) (e : PyErr) (mt : String)
    (ps : Option (List Payload)) (rest : List Payload) (hacc tacc : String)
    (h : pyB64DecodeToStr d = .error e) :
    decode_email_body (.mk (some (some d)) mt ps) = .error e ∧
    decodeParts (.mk (some (some d)) "text/plain" none :: rest) hacc tacc = .error e := by
  constructor
  · simp [decode_email_body, decodeBodyAcc, h,
      exceptBind_ok, exceptBind_error, exceptMap_ok, exceptMap_error]
  · simp [decodeParts, h,
      exceptBind_ok, exceptBind_error, exceptMap_ok, exceptMap_error]

/-- C4 counterexample: a malformed base64 payload (`"A"`) makes
`decode_email_body` raise instead of contributing nothing; and when such a
part comes first, the valid `text/html` part after it is never reached — the
traversal does not continue. -/
theorem claim_C4_counterexample :
    decode_email_body (.mk (some (some "A")) "" none) = .error PyErr.b64Error ∧
    decode_email_body (.mk none "" (some
      [.mk (some (some "A")) "text/plain" none,
       .mk (some (some "PGh0bWw-MzMzMzMzPC9odG1sPg==")) "text/html" none])) =
      .error PyErr.b64Error := by
  constructor
  · simp only [decode_email_body, decodeBodyAcc]
    decide
  · simp only [decode_email_body, decodeBodyAcc, decodeParts]
    decide

/-- C4 witness: the amended propagation theorem applied to the malformed
payload `"A"`. -/
theorem claim_C4_witness :
    decode_email_body (.mk (some (some "A")) "text/x" none) = .error PyErr.b64Error ∧
    decodeParts [.mk (some (some "A")) "text/plain" none] "h0" "t0" =
      .error PyErr.b64Error :=
  claim_C4_error_propagation "A" PyErr.b64Error "text/x" none [] "h0" "t0" (by decide)

/-! ### Starting sequence number (claim C5) -/

/-- C5 (amended): the starting number depends only on the first cell of the
last row of the sheet.  An empty sheet or a header-only sheet starts at 1;
otherwise: an integer cell `n` gives `n + 1`; an empty cell gives `1` (not a
row-count fallback); a missing cell (`IndexError`) or a nonempty non-numeric
cell (`ValueError`) falls back to the data row count, giving
`(len(existing_data) - 1) + 1 = len(existing_data)`.  In particular the last
numeric value of the column is not consulted; the claim as stated is refuted
by `claim_C5_counterexample`. -/
theorem claim_C5_start_number (rows : List (List String)) :
    (rows.length ≤ 1 → initialize_google_sheets_number rows = 1) ∧
    (∀ last, rows.getLast? = some last → 2 ≤ rows.length →
      ((last.head? = none →
          initialize_google_sheets_number rows = (rows.length : Int)) ∧
       (∀ c, last.head? = some c → c = "" →
          initialize_google_sheets_number rows = 1) ∧
       (∀ c n, last.head? = some c → c ≠ "" → pyIntParse c = some n →
          initialize_google_sheets_number rows = n + 1) ∧
       (∀ c, last.head? = some c → c ≠ "" → pyIntParse c = none →
          initialize_google_sheets_number rows = (rows.length : Int)))) := by
  constructor
  · intro hlen
    match rows with
    | [] => rfl
    | [_] => rfl
    | a :: b :: rest => simp at hlen
  · intro last hlast hlen
    match rows with
    | [] => simp at hlen
    | [_] => simp at hlen
    | a :: b :: rest =>
        have hgl : (a :: b :: rest).getLast (by simp) = last := by
          have := List.getLast?_eq_getLast (a :: b :: rest) (by simp)
          rw [this] at hlast
          exact Option.some.inj hlast
        refine ⟨?_, ?_, ?_, ?_⟩
        · intro hh
          unfold initialize_google_sheets_number
          dsimp only
          rw [hgl, hh]
          simp
        · intro c hc hce
          unfold initialize_google_sheets_number
          dsimp only
          rw [hgl, hc]
          simp [hce]
        · intro c n hc hcne hp
          unfold initialize_google_sheets_number
          dsimp only
          rw [hgl, hc]
          simp [hcne, hp]
        · intro c hc hcne hp
          unfold initialize_google_sheets_number
          dsimp only
          rw [hgl, hc]
          simp [hcne, hp]

/-- C5 counterexample: a sheet whose last data row has an empty sequence cell
— exactly what this program writes for the trailing tiers of a multi-tier
product — restarts the numbering at 1, although the last numeric value in
the column is 1 (so the claim demands 2) and the data row count is 2 (so the
claimed fallback demands 3). -/
theorem claim_C5_counterexample :
    initialize_google_sheets_number [["No"], ["1", "x"], ["", "y"]] = 1 ∧
    lastNumericInColumn [["No"], ["1", "x"], ["", "y"]] = some 1 ∧
    initialize_google_sheets_number [["No"], ["1", "x"], ["", "y"]] ≠ 1 + 1 ∧
    initialize_google_sheets_number [["No"], ["1", "x"], ["", "y"]] ≠ 2 + 1 := by
  refine ⟨by decide, by decide, by decide, by decide⟩

/-- C5 witness: the amended characterization applied to a sheet whose last
row carries the number 5. -/
theorem claim_C5_witness :
    initialize_google_sheets_number [["No"], ["5", "x"]] = 5 + 1 :=
  ((claim_C5_start_number [["No"], ["5", "x"]]).2 ["5", "x"] (by decide)
      (by decide)).2.2.1 "5" 5 (by decide) (by decide) (by decide)

/-! ### Sequence numbering across a run (claim C6) -/

theorem processContainer_step (st : ScanState) (c : Container)
    (h : 1 ≤ st.current_number) :
    ((processContainer st c).2.1 = [] ∧
     (processContainer st c).1.current_number = st.current_number) ∨
    (∃ batch, (processContainer st c).2.1 = [(st.current_number, batch)] ∧
     (processContainer st c).1.current_number = st.current_number + 1) := by
  unfold processContainer
  cases c.asin with
  | none => exact Or.inl ⟨rfl, rfl⟩
  | some a =>
      dsimp only
      by_cases hg : a = "" ∨ a ∈ st.scraped_asins ∨ a.length ≠ 10
      · rw [if_pos hg]
        exact Or.inl ⟨rfl, rfl⟩
      · rw [if_neg hg]
        by_cases hrows : c.rows.isEmpty
        · simp only [hrows, if_true]
          exact Or.inl ⟨by simp, by simp⟩
        · simp only [hrows, Bool.false_eq_true, if_false]
          unfold append_product_to_sheets
          by_cases hok : c.appendOk
          · have hne : st.current_number + 1 ≠ 0 := by omega
            simp only [hok, if_true]
            refine Or.inr ⟨append_built_rows c.rows st.current_number, ?_, ?_⟩
            · simp [hne]
            · simp [hne]
          · simp only [hok, Bool.false_eq_true, if_false]
            exact Or.inl ⟨by simp, by simp⟩

theorem runContainers_trace : ∀ (cs : List Container) (st : ScanState),
    1 ≤ st.current_number →
    ((runContainers st cs).2.1.map Prod.fst =
      seqFrom st.current_number (runContainers st cs).2.1.length) ∧
    (runContainers st cs).1.current_number =
      st.current_number + (runContainers st cs).2.1.length := by
  intro cs
  induction cs with
  | nil =>
      intro st h
      simp [runContainers, seqFrom]
  | cons c rest ih =>
      intro st h
      have hstep := processContainer_step st c h
      cases hpc : processContainer st c with
      | mk st1 p =>
          cases p with
          | mk sent1 counted =>
              rw [hpc] at hstep
              simp only at hstep
              have h1 : 1 ≤ st1.current_number := by
                cases hstep with
                | inl hc => omega
                | inr hc => obtain ⟨b, -, hc2⟩ := hc; omega
              obtain ⟨ihm, ihc⟩ := ih st1 h1
              cases hrc : runContainers st1 rest with
              | mk st2 q =>
                  cases q with
                  | mk sent2 n2 =>
                      rw [hrc] at ihm ihc
                      simp only at ihm ihc
                      simp only [runContainers, hpc, hrc]
                      cases hstep with
                      | inl hcase =>
                          obtain ⟨hsent, hcur⟩ := hcase
                          subst hsent
                          rw [hcur] at ihm ihc
                          exact ⟨by simpa using ihm, by simpa using ihc⟩
                      | inr hcase =>
                          obtain ⟨batch, hsent, hcur⟩ := hcase
                          subst hsent
                          rw [hcur] at ihm ihc
                          constructor
                          · simp only [List.singleton_append, List.map_cons,
                              List.length_cons]
                            rw [ihm]
                            rfl
                          · simp only [List.singleton_append, List.length_cons]
                            omega

theorem buildRowsFrom_flag (inp : AmazonAuto.ListingInput) :
    ∀ (tiers : List Tier) (idx0 i : Nat) (p : ProductData),
      (AmazonAuto.buildRowsFrom inp idx0 tiers).get? i = some p →
      p.is_first_tier = some (decide (idx0 + i = 0)) := by
  intro tiers
  induction tiers with
  | nil => intro idx0 i p h; simp [AmazonAuto.buildRowsFrom] at h
  | cons t rest ih =>
      intro idx0 i p h
      cases i with
      | zero =>
          simp only [AmazonAuto.buildRowsFrom, List.get?] at h
          cases h
          simp only [AmazonAuto.buildRow, Nat.add_zero]
          split <;> (try split) <;> rfl
      | succ j =>
          simp only [AmazonAuto.buildRowsFrom, List.get?] at h
          have := ih (idx0 + 1) j p h
          rw [this]
          congr 1
          have : idx0 + 1 + j = idx0 + (j + 1) := by omega
          rw [this]

theorem append_rows_from_head :
    ∀ (rows : List ProductData) (idx0 : Nat) (n : Int) (i : Nat) (row : List Cell),
      (append_rows_from idx0 n rows).get? i = some row →
      ∃ p, rows.get? i = some p ∧
        row.head? = some (if p.is_first_tier.getD (decide (idx0 + i = 0)) then
          Cell.num n else Cell.str "") := by
  intro rows
  induction rows with
  | nil => intro idx0 n i row h; simp [append_rows_from] at h
  | cons p rest ih =>
      intro idx0 n i row h
      cases i with
      | zero =>
          simp only [append_rows_from, List.get?] at h
          cases h
          refine ⟨p, rfl, ?_⟩
          simp
      | succ j =>
          simp only [append_rows_from, List.get?] at h
          obtain ⟨q, hq, hrow⟩ := ih (idx0 + 1) n j row h
          refine ⟨q, hq, ?_⟩
          rw [hrow]
          congr 2
          have : idx0 + 1 + j = idx0 + (j + 1) := by omega
          rw [this]

theorem scrape_first_cell (inp : AmazonAuto.ListingInput) (n : Int) (i : Nat)
    (row : List Cell)
    (h : (append_built_rows (AmazonAuto.scrape_product_from_listing inp) n).get? i =
      some row) :
    row.head? = some (if i = 0 then Cell.num n else Cell.str "") := by
  unfold append_built_rows at h
  obtain ⟨p, hp, hrow⟩ := append_rows_from_head _ 0 n i row h
  unfold AmazonAuto.scrape_product_from_listing at hp
  by_cases ha : inp.asin = ""
  · rw [if_pos ha] at hp; simp at hp
  · rw [if_neg ha] at hp
    dsimp only at hp
    have hflag := buildRowsFrom_flag inp _ 0 i p hp
    rw [hrow, hflag]
    simp only [Option.getD_some, Nat.zero_add]
    by_cases hi : i = 0
    · simp [hi]
    · simp [hi]

/-- C6: in one run, a successfully appended product advances the sequence
number by exactly 1 whatever its tier count, a failed append does not
advance it, the `current_number` arguments of the successful appends are
exactly `start, start+1, ..., start+N-1` for the `N` successful products,
and in the rows built for a product scraped by the normalizer only the
first-tier row carries the number, every other row getting an empty cell.
The hypothesis `1 ≤ start` reflects the initializer's contract (it starts at
1 on a fresh sheet); it rules out the start value `-1`, at which the
truthiness test `if new_number:` of the scanning loop would misclassify a
successful append returning `0`. -/
theorem claim_C6_sequence_numbers (start : Int) (scraped0 : List String)
    (total0 : Nat) (cs : List Container) (hstart : 1 ≤ start) :
    ((runContainers ⟨scraped0, start, total0⟩ cs).2.1.map Prod.fst =
      seqFrom start (runContainers ⟨scraped0, start, total0⟩ cs).2.1.length) ∧
    ((runContainers ⟨scraped0, start, total0⟩ cs).1.current_number =
      start + (runContainers ⟨scraped0, start, total0⟩ cs).2.1.length) ∧
    (∀ (rows : List ProductData) (n : Int),
        append_product_to_sheets true rows n = some (n + 1)) ∧
    (∀ (rows : List ProductData) (n : Int),
        append_product_to_sheets false rows n = none) ∧
    (∀ (inp : AmazonAuto.ListingInput) (n : Int) (i : Nat) (row : List Cell),
        (append_built_rows (AmazonAuto.scrape_product_from_listing inp) n).get? i =
          some row →
        row.head? = some (if i = 0 then Cell.num n else Cell.str "")) := by
  obtain ⟨hm, hc⟩ := runContainers_trace cs ⟨scraped0, start, total0⟩ hstart
  exact ⟨hm, hc, fun rows n => rfl, fun rows n => rfl,
    fun inp n i row h => scrape_first_cell inp n i row h⟩

/-- C6 witness: a run over three containers — a two-tier success, a failed
append, and a one-tier success — starting at 1. -/
theorem claim_C6_witness :
    ((runContainers ⟨[], 1, 0⟩
        [⟨some "B0AAAAAAA1",
          [⟨"T", "B0AAAAAAA1", "W", "1", "", "800", "", "", some true⟩,
           ⟨"", "", "", "5+", "", "700", "", "", some false⟩], true⟩,
         ⟨some "B0AAAAAAA2",
          [⟨"T", "B0AAAAAAA2", "X", "1", "", "900", "", "", some true⟩], false⟩,
         ⟨some "B0AAAAAAA3",
          [⟨"T", "B0AAAAAAA3", "Y", "1", "", "500", "", "", some true⟩], true⟩]).2.1.map
        Prod.fst =
      seqFrom 1 (runContainers ⟨[], 1, 0⟩
        [⟨some "B0AAAAAAA1",
          [⟨"T", "B0AAAAAAA1", "W", "1", "", "800", "", "", some true⟩,
           ⟨"", "", "", "5+", "", "700", "", "", some false⟩], true⟩,
         ⟨some "B0AAAAAAA2",
          [⟨"T", "B0AAAAAAA2", "X", "1", "", "900", "", "", some true⟩], false⟩,
         ⟨some "B0AAAAAAA3",
          [⟨"T", "B0AAAAAAA3", "Y", "1", "", "500", "", "", some true⟩], true⟩]).2.1.length) ∧
    ((runContainers ⟨[], 1, 0⟩
        [⟨some "B0AAAAAAA1",
          [⟨"T", "B0AAAAAAA1", "W", "1", "", "800", "", "", some true⟩,
           ⟨"", "", "", "5+", "", "700", "", "", some false⟩], true⟩,
         ⟨some "B0AAAAAAA2",
          [⟨"T", "B0AAAAAAA2", "X", "1", "", "900", "", "", some true⟩], false⟩,
         ⟨some "B0AAAAAAA3",
          [⟨"T", "B0AAAAAAA3", "Y", "1", "", "500", "", "", some true⟩], true⟩]).1.current_number =
      1 + (runContainers ⟨[], 1, 0⟩
        [⟨some "B0AAAAAAA1",
          [⟨"T", "B0AAAAAAA1", "W", "1", "", "800", "", "", some true⟩,
           ⟨"", "", "", "5+", "", "700", "", "", some false⟩], true⟩,
         ⟨some "B0AAAAAAA2",
          [⟨"T", "B0AAAAAAA2", "X", "1", "", "900", "", "", some true⟩], false⟩,
         ⟨some "B0AAAAAAA3",
          [⟨"T", "B0AAAAAAA3", "Y", "1", "", "500", "", "", some true⟩], true⟩]).2.1.length) ∧
    (∀ (rows : List ProductData) (n : Int),
        append_product_to_sheets true rows n = some (n + 1)) ∧
    (∀ (rows : List ProductData) (n : Int),
        append_product_to_sheets false rows n = none) ∧
    (∀ (inp : AmazonAuto.ListingInput) (n : Int) (i : Nat) (row : List Cell),
        (append_built_rows (AmazonAuto.scrape_product_from_listing inp) n).get? i =
          some row →
        row.head? = some (if i = 0 then Cell.num n else Cell.str "")) :=
  claim_C6_sequence_numbers 1 [] 0
    [⟨some "B0AAAAAAA1",
      [⟨"T", "B0AAAAAAA1", "W", "1", "", "800", "", "", some true⟩,
       ⟨"", "", "", "5+", "", "700", "", "", some false⟩], true⟩,
     ⟨some "B0AAAAAAA2",
      [⟨"T", "B0AAAAAAA2", "X", "1", "", "900", "", "", some true⟩], false⟩,
     ⟨some "B0AAAAAAA3",
      [⟨"T", "B0AAAAAAA3", "Y", "1", "", "500", "", "", some true⟩], true⟩] (by decide)

/-! ### Tier fallback of the normalizer (claim C7) -/

theorem auto_buildRow_fields (inp : AmazonAuto.ListingInput) (idx : Nat) (t : Tier) :
    (AmazonAuto.buildRow inp idx t).quantity = t.quantity ∧
    (AmazonAuto.buildRow inp idx t).unit_price = t.unit_price := by
  unfold AmazonAuto.buildRow
  dsimp only
  constructor <;>
    (by_cases hc : ¬inp.refPrice.getD "" = "" ∧ ¬t.unit_price = ""
     · rw [if_pos hc]
       cases pyFloatParse (inp.refPrice.getD "") <;>
         cases pyFloatParse t.unit_price <;> rfl
     · rw [if_neg hc])

theorem cat_buildRow_fields (inp : CategorySearch.ListingInput) (idx : Nat) (t : Tier) :
    (CategorySearch.buildRow inp idx t).quantity = t.quantity ∧
    (CategorySearch.buildRow inp idx t).unit_price = t.unit_price := by
  unfold CategorySearch.buildRow
  dsimp only
  constructor <;>
    (by_cases hc : ¬inp.refPrice.getD "" = "" ∧ ¬t.unit_price = ""
     · rw [if_pos hc]
       cases pyFloatParse (inp.refPrice.getD "") <;>
         cases pyFloatParse (pyReplace (pyReplace t.unit_price "¥" "") "," "") <;> rfl
     · rw [if_neg hc])

/-- C7: every nonempty result of `scrape_product_from_listing` (either
variant) has at least one tier row; and whenever the explicit tier
extraction yields nothing but a record is emitted, the result is exactly one
synthetic tier row of quantity `"1"` whose unit price is the first
successful base-price extraction (¥-prefixed in the category_search
variant).  When the base-price extraction also fails, no record is emitted
at all. -/
theorem claim_C7_tier_fallback :
    (∀ inp : AmazonAuto.ListingInput,
       (AmazonAuto.scrape_product_from_listing inp ≠ [] →
         1 ≤ (AmazonAuto.scrape_product_from_listing inp).length) ∧
       (AmazonAuto.extractTiers inp.tierItems = [] →
         AmazonAuto.scrape_product_from_listing inp ≠ [] →
         ∃ bp row, firstSome (inp.basePriceTexts.map extract_number) = some bp ∧
           AmazonAuto.scrape_product_from_listing inp = [row] ∧
           row.quantity = "1" ∧ row.unit_price = bp)) ∧
    (∀ inp : CategorySearch.ListingInput,
       (CategorySearch.scrape_product_from_listing inp ≠ [] →
         1 ≤ (CategorySearch.scrape_product_from_listing inp).length) ∧
       (CategorySearch.extractTiers inp.tierItems = [] →
         CategorySearch.scrape_product_from_listing inp ≠ [] →
         ∃ bp row, firstSome (inp.basePriceTexts.map extract_number) = some bp ∧
           CategorySearch.scrape_product_from_listing inp = [row] ∧
           row.quantity = "1" ∧ row.unit_price = "¥" ++ bp)) := by
  constructor
  · intro inp
    constructor
    · intro hne
      cases hv : AmazonAuto.scrape_product_from_listing inp with
      | nil => exact absurd hv hne
      | cons a l => simp
    · intro htiers hne
      unfold AmazonAuto.scrape_product_from_listing at hne ⊢
      by_cases ha : inp.asin = ""
      · rw [if_pos ha] at hne; exact absurd rfl hne
      · rw [if_neg ha] at hne ⊢
        dsimp only at hne ⊢
        rw [htiers] at hne ⊢
        simp only [List.isEmpty_nil, if_true] at hne ⊢
        cases hb : firstSome (inp.basePriceTexts.map extract_number) with
        | none => rw [hb] at hne; exact absurd rfl hne
        | some bp =>
            refine ⟨bp, AmazonAuto.buildRow inp 0 ⟨"1", bp⟩, rfl, rfl, ?_, ?_⟩
            · exact (auto_buildRow_fields inp 0 ⟨"1", bp⟩).1
            · exact (auto_buildRow_fields inp 0 ⟨"1", bp⟩).2
  · intro inp
    constructor
    · intro hne
      cases hv : CategorySearch.scrape_product_from_listing inp with
      | nil => exact absurd hv hne
      | cons a l => simp
    · intro htiers hne
      unfold CategorySearch.scrape_product_from_listing at hne ⊢
      by_cases ha : inp.asin = ""
      · rw [if_pos ha] at hne; exact absurd rfl hne
      · rw [if_neg ha] at hne ⊢
        dsimp only at hne ⊢
        rw [htiers] at hne ⊢
        simp only [List.isEmpty_nil, if_true] at hne ⊢
        cases hb : firstSome (inp.basePriceTexts.map extract_number) with
        | none => rw [hb] at hne; exact absurd rfl hne
        | some bp =>
            refine ⟨bp, CategorySearch.buildRow inp 0 ⟨"1", "¥" ++ bp⟩, rfl, rfl, ?_, ?_⟩
            · exact (cat_buildRow_fields inp 0 ⟨"1", "¥" ++ bp⟩).1
            · exact (cat_buildRow_fields inp 0 ⟨"1", "¥" ++ bp⟩).2

/-- C7 witness: the spec's Scenario B container — no tier list, base price
`¥1,980` — yields exactly one synthetic tier. -/
theorem claim_C7_witness :
    ∃ bp row,
      firstSome ((["¥1,980"] : List String).map extract_number) = some bp ∧
      AmazonAuto.scrape_product_from_listing
        ⟨"B0ABCDEFGH", "Widget", "T", none, none, [], ["¥1,980"]⟩ = [row] ∧
      row.quantity = "1" ∧ row.unit_price = bp :=
  ((claim_C7_tier_fallback.1
      ⟨"B0ABCDEFGH", "Widget", "T", none, none, [], ["¥1,980"]⟩).2
    (by decide) (by decide))

unseal Rat.mul Rat.add Rat.sub Rat.inv in
/-- C8 (amended): for a tier whose reference price parses to `r` and unit price
to `u` with `r > 0`, both scrapers compute the discount amount as `r - u`
(formatted via `f{amount:.0f}`, round-half-even) and the discount rate as
`(r - u) / r * 100` (formatted via `f{rate:.1f}`); `amazon_auto` stores the
bare formatted strings, while `category_search` stores `"¥"` prefixed to the
amount and `"%"` appended to the rate. In particular reference price 1000 and
unit price 800 yield amount string `"200"` and rate string `"20.0"` before
affixes. -/
theorem claim_C8_discount_arithmetic :
    (∀ (inp : AmazonAuto.ListingInput) (idx : Nat) (t : Tier) (r u : ℚ),
        inp.refPrice.getD "" ≠ "" → t.unit_price ≠ "" →
        pyFloatParse (inp.refPrice.getD "") = some r →
        pyFloatParse t.unit_price = some u → 0 < r →
        (AmazonAuto.buildRow inp idx t).discount_amount = formatFixed 0 (r - u) ∧
        (AmazonAuto.buildRow inp idx t).discount_rate =
          formatFixed 1 ((r - u) / r * 100)) ∧
    (∀ (inp : CategorySearch.ListingInput) (idx : Nat) (t : Tier) (r u : ℚ),
        inp.refPrice.getD "" ≠ "" → t.unit_price ≠ "" →
        pyFloatParse (inp.refPrice.getD "") = some r →
        pyFloatParse (pyReplace (pyReplace t.unit_price "¥" "") "," "") = some u → 0 < r →
        (CategorySearch.buildRow inp idx t).discount_amount =
          "¥" ++ formatFixed 0 (r - u) ∧
        (CategorySearch.buildRow inp idx t).discount_rate =
          formatFixed 1 ((r - u) / r * 100) ++ "%") ∧
    formatFixed 0 ((1000 : ℚ) - 800) = "200" ∧
    formatFixed 1 (((1000 : ℚ) - 800) / 1000 * 100) = "20.0" := by
  refine ⟨?_, ?_, ?_, ?_⟩
  · intro inp idx t r u h1 h2 hp1 hp2 hr
    unfold AmazonAuto.buildRow
    dsimp only
    rw [if_pos ⟨h1, h2⟩, hp1, hp2]
    dsimp only
    rw [if_pos hr]
    exact ⟨rfl, rfl⟩
  · intro inp idx t r u h1 h2 hp1 hp2 hr
    unfold CategorySearch.buildRow
    dsimp only
    rw [if_pos ⟨h1, h2⟩, hp1, hp2]
    dsimp only
    rw [if_pos hr]
    exact ⟨rfl, rfl⟩
  · rw [show ((1000 : ℚ) - 800) = 200 by norm_num]
    decide
  · rw [show (((1000 : ℚ) - 800) / 1000 * 100) = 20 by norm_num]
    decide

unseal Rat.mul Rat.add Rat.sub Rat.inv in
/-- C8 counterexample: the category variant, on the very numbers of P6
(reference 1000, unit 800), emits discount rate `"20.0%"` and discount amount
`"¥200"` — strings carrying affixes, not the bare `"20.0"` / `200` the claim
promises uniformly for both scrapers. -/
theorem claim_C8_counterexample :
    (CategorySearch.scrape_product_from_listing
        ⟨"B0ABCDEFGH", "Widget", "T", some "1000", none,
         [⟨some "1", none, none, some "800"⟩], []⟩).map
        (fun r => r.discount_rate) = ["20.0%"] ∧
    (CategorySearch.scrape_product_from_listing
        ⟨"B0ABCDEFGH", "Widget", "T", some "1000", none,
         [⟨some "1", none, none, some "800"⟩], []⟩).map
        (fun r => r.discount_amount) = ["¥200"] ∧
    ("20.0%" : String) ≠ "20.0" := by
  refine ⟨by decide, by decide, by decide⟩

unseal Rat.mul Rat.add Rat.sub Rat.inv in
/-- C8 witness: the amended arithmetic applied to the `amazon_auto` builder at
reference 1000 and unit 800, discharging every hypothesis concretely. -/
theorem claim_C8_witness :
    (AmazonAuto.buildRow ⟨"B0ABCDEFGH", "Widget", "T", some "1000", none, [], []⟩
        0 ⟨"1", "800"⟩).discount_amount = formatFixed 0 ((1000 : ℚ) - 800) ∧
    (AmazonAuto.buildRow ⟨"B0ABCDEFGH", "Widget", "T", some "1000", none, [], []⟩
        0 ⟨"1", "800"⟩).discount_rate =
      formatFixed 1 (((1000 : ℚ) - 800) / 1000 * 100) :=
  claim_C8_discount_arithmetic.1
    ⟨"B0ABCDEFGH", "Widget", "T", some "1000", none, [], []⟩ 0 ⟨"1", "800"⟩
    1000 800 (by decide) (by decide) (by decide) (by decide) (by decide)

/-- C9 (amended): at the fifth consecutive unproductive iteration the two
loops diverge. `scrape_all_products` (amazon_auto) terminates on the spot:
the iteration that reaches the threshold emits no action at all — no final
full-height scroll and no verification pass. `search_and_scrape_products`
(category_search), when no enabled pagination button is visible, performs
the final full-height scroll and the verification pass: it terminates only
if that pass finds no unscraped ASIN, and otherwise resumes with the
counter reset to zero. -/
theorem claim_C9_termination :
    (∀ (ls : LoopState) (cs : List Container),
        cs ≠ [] → (runContainers ls.st cs).2.2 = 0 → ls.no_new + 1 ≥ 5 →
        autoStep ls cs =
          ({ st := (runContainers ls.st cs).1, scroll_count := ls.scroll_count,
             no_new := ls.no_new + 1 }, [], some .endOfResults)) ∧
    (∀ (ls : LoopState) (it : CatIteration),
        it.containers ≠ [] → (runContainers ls.st it.containers).2.2 = 0 →
        it.nextButton = false → ls.no_new + 1 ≥ 5 →
        catStep ls it =
          (if finalCheckFound (runContainers ls.st it.containers).1.scraped_asins
              it.finalCheckAsins then
            ({ st := (runContainers ls.st it.containers).1,
               scroll_count := ls.scroll_count + 1, no_new := 0 },
             [.fullHeightScroll, .wheelScroll], none)
          else
            ({ st := (runContainers ls.st it.containers).1,
               scroll_count := ls.scroll_count, no_new := ls.no_new + 1 },
             [.fullHeightScroll], some .endOfResults))) := by
  constructor
  · intro ls cs hne hzero hth
    unfold autoStep
    rw [if_neg (by simp [List.isEmpty_iff, hne])]
    cases hrc : runContainers ls.st cs with
    | mk st' r =>
      cases r with
      | mk sent n =>
        have hn : n = 0 := by rw [hrc] at hzero; exact hzero
        subst hn
        dsimp only
        rw [if_neg (by omega)]
        rw [if_pos hth]
  · intro ls it hne hzero hbtn hth
    unfold catStep
    rw [if_neg (by simp [List.isEmpty_iff, hne])]
    cases hrc : runContainers ls.st it.containers with
    | mk st' r =>
      cases r with
      | mk sent n =>
        have hn : n = 0 := by rw [hrc] at hzero; exact hzero
        subst hn
        dsimp only
        rw [if_neg (by omega)]
        rw [hbtn]
        rw [if_neg (by simp)]
        rw [if_pos hth]

/-- C9 counterexample: a full amazon_auto run whose five iterations each
render one container holding an already-known (after the first sighting)
ASIN with no extractable rows stops with the end-of-results reason, and its
complete action trace is four ordinary wheel scrolls — the final full-height
scroll the claim promises never happens. -/
theorem claim_C9_counterexample :
    (runAuto ⟨⟨[], 1, 0⟩, 0, 0⟩
        (List.replicate 5 [⟨some "B000000001", [], true⟩])).2.2 =
      StopReason.endOfResults ∧
    (runAuto ⟨⟨[], 1, 0⟩, 0, 0⟩
        (List.replicate 5 [⟨some "B000000001", [], true⟩])).2.1 =
      List.replicate 4 ScanAction.wheelScroll ∧
    ScanAction.fullHeightScroll ∉
      (runAuto ⟨⟨[], 1, 0⟩, 0, 0⟩
        (List.replicate 5 [⟨some "B000000001", [], true⟩])).2.1 := by
  refine ⟨by decide, by decide, by decide⟩

/-- C9 witness: the amended step characterizations applied at the threshold
to a concrete state and iteration, every hypothesis discharged concretely. -/
theorem claim_C9_witness :
    autoStep ⟨⟨["B000000001"], 7, 0⟩, 3, 4⟩ [⟨some "B000000001", [], true⟩] =
      ({ st := (runContainers ⟨["B000000001"], 7, 0⟩
                  [⟨some "B000000001", [], true⟩]).1,
         scroll_count := 3, no_new := 5 }, [], some .endOfResults) ∧
    catStep ⟨⟨["B000000001"], 7, 0⟩, 3, 4⟩
        ⟨[⟨some "B000000001", [], true⟩], false, [some "B000000001", none]⟩ =
      (if finalCheckFound
            (runContainers ⟨["B000000001"], 7, 0⟩
               [⟨some "B000000001", [], true⟩]).1.scraped_asins
            [some "B000000001", none] then
        ({ st := (runContainers ⟨["B000000001"], 7, 0⟩
                    [⟨some "B000000001", [], true⟩]).1,
           scroll_count := 4, no_new := 0 },
         [.fullHeightScroll, .wheelScroll], none)
      else
        ({ st := (runContainers ⟨["B000000001"], 7, 0⟩
                    [⟨some "B000000001", [], true⟩]).1,
           scroll_count := 3, no_new := 5 },
         [.fullHeightScroll], some .endOfResults)) :=
  ⟨claim_C9_termination.1 ⟨⟨["B000000001"], 7, 0⟩, 3, 4⟩
      [⟨some "B000000001", [], true⟩]
      (List.cons_ne_nil _ _) (by decide) (by decide),
   claim_C9_termination.2 ⟨⟨["B000000001"], 7, 0⟩, 3, 4⟩
      ⟨[⟨some "B000000001", [], true⟩], false, [some "B000000001", none]⟩
      (List.cons_ne_nil _ _) (by decide) rfl (by decide)⟩

/-- C10: an ASIN already in the dedup set is skipped entirely — the state,
the sheet traffic and the new-product flag are untouched whatever the
container now offers; and a fresh valid ASIN joins the dedup set even when
its container yields no rows or its sheet append fails, in both cases
sending nothing, consuming no sequence number and not counting as a new
product — so any later sighting in the run falls under the first clause and
is silently skipped. -/
theorem claim_C10_dedup :
    (∀ (st : ScanState) (c : Container) (a : String),
        c.asin = some a → a ∈ st.scraped_asins →
        processContainer st c = (st, [], false)) ∧
    (∀ (st : ScanState) (c : Container) (a : String),
        c.asin = some a → a ≠ "" → a ∉ st.scraped_asins → a.length = 10 →
        c.rows = [] →
        processContainer st c =
          ({ st with scraped_asins := st.scraped_asins ++ [a] }, [], false)) ∧
    (∀ (st : ScanState) (c : Container) (a : String),
        c.asin = some a → a ≠ "" → a ∉ st.scraped_asins → a.length = 10 →
        c.rows ≠ [] → c.appendOk = false →
        processContainer st c =
          ({ st with scraped_asins := st.scraped_asins ++ [a] }, [], false)) := by
  refine ⟨?_, ?_, ?_⟩
  · intro st c a ha hmem
    simp only [processContainer, ha]
    rw [if_pos (Or.inr (Or.inl hmem))]
  · intro st c a ha hne hmem hlen hrows
    simp only [processContainer, ha, hrows, List.isEmpty_nil]
    rw [if_neg (by simp [hne, hmem, hlen])]
    rw [if_pos trivial]
  · intro st c a ha hne hmem hlen hrows hok
    simp only [processContainer, ha, hok]
    rw [if_neg (by simp [hne, hmem, hlen])]
    rw [if_neg (by simp [List.isEmpty_iff, hrows])]
    rfl

/-- C10 witness: the three clauses at concrete states — a re-sighted ASIN
with extractable rows is ignored; a fresh ASIN with no rows, and a fresh
ASIN whose append fails, both join the dedup set without advancing the
sequence number. -/
theorem claim_C10_witness :
    processContainer ⟨["B000000001"], 7, 2⟩ ⟨some "B000000001",
        [⟨"t", "B000000001", "n", "1", "", "800", "", "", none⟩], true⟩ =
      (⟨["B000000001"], 7, 2⟩, [], false) ∧
    processContainer ⟨[], 7, 2⟩ ⟨some "B000000002", [], true⟩ =
      ({ scraped_asins := ["B000000002"], current_number := 7,
         total_rows_sent := 2 }, [], false) ∧
    processContainer ⟨[], 7, 2⟩ ⟨some "B000000003",
        [⟨"t", "B000000003", "n", "1", "", "800", "", "", none⟩], false⟩ =
      ({ scraped_asins := ["B000000003"], current_number := 7,
         total_rows_sent := 2 }, [], false) :=
  ⟨claim_C10_dedup.1 ⟨["B000000001"], 7, 2⟩ _ "B000000001" rfl (by decide),
   claim_C10_dedup.2.1 ⟨[], 7, 2⟩ _ "B000000002" rfl (by decide) (by decide)
     (by decide) rfl,
   claim_C10_dedup.2.2 ⟨[], 7, 2⟩ _ "B000000003" rfl (by decide) (by decide)
     (by decide) (by decide) rfl⟩

end AmazonTool
